import Mathlib

/-!
# Verification of the library-search ingestion pipeline

Shallow embedding of the document extraction and bulk-encoding pipeline of the
`Digital-Biblioteka/library-search` repository, together with proofs settling
the specification claims.  The embedded code is:

* `src/ingest/epub_to_json.py` — `extract_texts_from_item`, `_meta_values`,
  `_pick_stable_id`, `read_epub`;
* `src/ingest/convert_json_to_ndjson.py` — `to_bulk_actions`,
  `process_json_objects`;
* `src/scripts/escli.py` — the per-pair body of `embed_from_ndjson`.

Python strings are modelled by `String` (a sequence of unicode code points,
matching the Python view), decoded JSON values by the `JValue` inductive,
machine bytes by `Nat` values below 256, and SHA-1 is implemented in full over
`Nat` arithmetic mod 2^32.  ASCII is assumed for the case and whitespace
predicates (the repository data is ASCII in every relevant position); this is
noted at each such definition.
-/

set_option maxRecDepth 4096

namespace LibrarySearch

/-! ## Python string primitives -/

/-- Python whitespace test restricted to the ASCII range: the characters
stripped by `str.strip()` and matched by the regex class `\s`. -/
def pyIsSpace (c : Char) : Bool :=
  c = ' ' || c = '\t' || c = '\n' || c = '\r' || c = '\x0b' || c = '\x0c'

/-- Python `str.strip()` with no argument: drop whitespace from both ends. -/
def pyStrip (s : String) : String :=
  String.mk (((s.toList.dropWhile pyIsSpace).reverse.dropWhile pyIsSpace).reverse)

/-- Scanner for `str.split()` with no argument: collect maximal runs of
non-whitespace characters (`cur` holds the current run reversed). -/
def pySplitWsGo (cur : List Char) : List Char → List String
  | [] => if cur.isEmpty then [] else [String.mk cur.reverse]
  | c :: rest =>
    if pyIsSpace c then
      (if cur.isEmpty then [] else [String.mk cur.reverse]) ++ pySplitWsGo [] rest
    else pySplitWsGo (c :: cur) rest

/-- Python `str.split()` with no argument: split on whitespace runs,
discarding empty pieces. -/
def pySplitWs (s : String) : List String :=
  pySplitWsGo [] s.toList

/-- Scanner for `str.split(sep)` with a one-character separator. -/
def pySplitCharGo (sep : Char) (cur : List Char) : List Char → List String
  | [] => [String.mk cur.reverse]
  | c :: rest =>
    if c = sep then String.mk cur.reverse :: pySplitCharGo sep [] rest
    else pySplitCharGo sep (c :: cur) rest

/-- Python `str.split(sep)` with a one-character separator: empty pieces are
kept, and the empty string yields one empty piece. -/
def pySplitChar (s : String) (sep : Char) : List String :=
  pySplitCharGo sep [] s.toList

/-- Python `str.replace(old, new)` for one-character arguments. -/
def pyReplaceChar (s : String) (old new : Char) : String :=
  String.mk (s.toList.map (fun c => if c = old then new else c))

/-- Scanner for `str.split("\n\n")`: cut at each non-overlapping blank-line
separator, scanning left to right. -/
def pySplitNNGo (cur : List Char) : List Char → List (List Char)
  | [] => [cur.reverse]
  | '\n' :: '\n' :: rest => cur.reverse :: pySplitNNGo [] rest
  | c :: rest => pySplitNNGo (c :: cur) rest

/-- Python `str.split("\n\n")`. -/
def pySplitNN (s : String) : List String :=
  (pySplitNNGo [] s.toList).map String.mk

/-- Python word character test (regex `\w`), ASCII range. -/
def isWordChar (c : Char) : Bool :=
  c.isAlpha || c.isDigit || c = '_'

/-- One step of Python `str.title()`: an alphabetic character is uppercased
when the previous character was not alphabetic and lowercased otherwise
(ASCII case mapping). -/
def pyTitleGo : Bool → List Char → List Char
  | _, [] => []
  | prevCased, c :: rest =>
    if c.isAlpha then
      (if prevCased then c.toLower else c.toUpper) :: pyTitleGo true rest
    else
      c :: pyTitleGo false rest

/-- Python `str.title()` (ASCII case mapping). -/
def pyTitle (s : String) : String :=
  String.mk (pyTitleGo false s.toList)

/-- Substring test over character lists: Python `needle in hay`. -/
def containsSub (hay needle : List Char) : Bool :=
  needle.isPrefixOf hay ||
    (match hay with
     | [] => false
     | _ :: t => containsSub t needle)

/-- Python `needle in hay` for strings. -/
def strContains (hay needle : String) : Bool :=
  containsSub hay.toList needle.toList

/-- Python format spec `06d` applied to a natural number: decimal digits,
left padded with zeros to a minimum width of six. -/
def pad6 (n : Nat) : String :=
  let s := toString n
  if s.length < 6 then String.mk (List.replicate (6 - s.length) '0') ++ s else s

/-! ## SHA-1 (`hashlib.sha1`), over byte lists -/

/-- Truncate to a 32-bit word. -/
def w32 (n : Nat) : Nat := n % 4294967296

/-- Rotate a 32-bit word left by `k` bits. -/
def rotl (k n : Nat) : Nat := w32 ((n <<< k) ||| (n >>> (32 - k)))

/-- SHA-1 round function, by round index. -/
def sha1F (t b c d : Nat) : Nat :=
  if t < 20 then (b &&& c) ||| ((4294967295 - b) &&& d)
  else if t < 40 then b ^^^ c ^^^ d
  else if t < 60 then (b &&& c) ||| (b &&& d) ||| (c &&& d)
  else b ^^^ c ^^^ d

/-- SHA-1 round constant, by round index. -/
def sha1K (t : Nat) : Nat :=
  if t < 20 then 0x5A827999
  else if t < 40 then 0x6ED9EBA1
  else if t < 60 then 0x8F1BBCDC
  else 0xCA62C1D6

/-- Big-endian 8-byte rendering of a natural number. -/
def be64 (n : Nat) : List Nat :=
  [(n >>> 56) % 256, (n >>> 48) % 256, (n >>> 40) % 256, (n >>> 32) % 256,
   (n >>> 24) % 256, (n >>> 16) % 256, (n >>> 8) % 256, n % 256]

/-- SHA-1 padding: append the `0x80` marker, zero bytes to a 56 mod 64
boundary, and the big-endian 64-bit bit length. -/
def sha1Pad (msg : List Nat) : List Nat :=
  let z := (119 - (msg.length % 64)) % 64
  msg ++ [0x80] ++ List.replicate z 0 ++ be64 (8 * msg.length)

/-- Split a byte list into successive 64-byte blocks. -/
def chunk64 : List Nat → List (List Nat)
  | [] => []
  | x :: xs => (x :: xs.take 63) :: chunk64 (xs.drop 63)
  termination_by l => l.length
  decreasing_by
    simp only [List.length_drop, List.length_cons]
    omega

/-- Combine four bytes into a big-endian 32-bit word. -/
def beWord (a b c d : Nat) : Nat := ((a * 256 + b) * 256 + c) * 256 + d

/-- The sixteen big-endian words of one 64-byte block. -/
def toWords : List Nat → List Nat
  | a :: b :: c :: d :: rest => beWord a b c d :: toWords rest
  | _ => []

/-- One extension step of the SHA-1 message schedule: append the rotated xor
of the words 3, 8, 14 and 16 places back. -/
def extendStep (ws : List Nat) : List Nat :=
  let n := ws.length
  ws ++ [rotl 1 ((ws.getD (n - 3) 0) ^^^ (ws.getD (n - 8) 0) ^^^
                 (ws.getD (n - 14) 0) ^^^ (ws.getD (n - 16) 0))]

/-- The eighty-word SHA-1 message schedule of one block. -/
def sha1Words (w16 : List Nat) : List Nat :=
  (List.range 64).foldl (fun ws _ => extendStep ws) w16

/-- SHA-1 compression of one 64-byte block into the running state. -/
def sha1Compress (h : List Nat) (block : List Nat) : List Nat :=
  let ws := sha1Words (toWords block)
  let st := (List.range 80).foldl
    (fun (st : Nat × Nat × Nat × Nat × Nat) t =>
      let (a, b, c, d, e) := st
      let tmp := w32 (rotl 5 a + sha1F t b c d + e + sha1K t + ws.getD t 0)
      (tmp, a, rotl 30 b, c, d))
    (h.getD 0 0, h.getD 1 0, h.getD 2 0, h.getD 3 0, h.getD 4 0)
  match st with
  | (a, b, c, d, e) =>
    [w32 (h.getD 0 0 + a), w32 (h.getD 1 0 + b), w32 (h.getD 2 0 + c),
     w32 (h.getD 3 0 + d), w32 (h.getD 4 0 + e)]

/-- SHA-1 digest of a byte list, as five 32-bit words. -/
def sha1Digest (msg : List Nat) : List Nat :=
  (chunk64 (sha1Pad msg)).foldl sha1Compress
    [0x67452301, 0xEFCDAB89, 0x98BADCFE, 0x10325476, 0xC3D2E1F0]

/-- Lowercase hexadecimal digit. -/
def hexDigit (n : Nat) : Char :=
  if n < 10 then Char.ofNat (48 + n) else Char.ofNat (87 + n)

/-- Eight hexadecimal characters of one 32-bit word. -/
def wordHex (n : Nat) : List Char :=
  [hexDigit ((n >>> 28) % 16), hexDigit ((n >>> 24) % 16),
   hexDigit ((n >>> 20) % 16), hexDigit ((n >>> 16) % 16),
   hexDigit ((n >>> 12) % 16), hexDigit ((n >>> 8) % 16),
   hexDigit ((n >>> 4) % 16), hexDigit (n % 16)]

/-- `hashlib.sha1(msg).hexdigest()`: the 40-character lowercase hexadecimal
SHA-1 digest of a byte list. -/
def sha1Hex (msg : List Nat) : String :=
  String.mk ((sha1Digest msg).flatMap wordHex)

/-- UTF-8 encoding of one code point (Python `str.encode("utf-8")`). -/
def utf8Char (c : Char) : List Nat :=
  let n := c.toNat
  if n < 0x80 then [n]
  else if n < 0x800 then
    [0xC0 ||| (n >>> 6), 0x80 ||| (n &&& 0x3F)]
  else if n < 0x10000 then
    [0xE0 ||| (n >>> 12), 0x80 ||| ((n >>> 6) &&& 0x3F), 0x80 ||| (n &&& 0x3F)]
  else
    [0xF0 ||| (n >>> 18), 0x80 ||| ((n >>> 12) &&& 0x3F),
     0x80 ||| ((n >>> 6) &&& 0x3F), 0x80 ||| (n &&& 0x3F)]

/-- UTF-8 encoding of a string as a byte list. -/
def utf8Encode (s : String) : List Nat :=
  s.toList.flatMap utf8Char

/-! ## Decoded JSON values

`JValue` models the result of `json.loads`: objects keep their key order and
have distinct keys.  JSON numbers are restricted to integers; no claim (and no
relevant code path) involves non-integer numbers. -/

inductive JValue where
  | null
  | bool (b : Bool)
  | num (n : Int)
  | str (s : String)
  | arr (xs : List JValue)
  | obj (kvs : List (String × JValue))

/-- First binding of a key in an object, Python `dict` lookup. -/
def jlookup (kvs : List (String × JValue)) (k : String) : Option JValue :=
  match kvs with
  | [] => none
  | (k', v) :: rest => if k' = k then some v else jlookup rest k

/-- Python truthiness of a decoded JSON value. -/
def pyTruthy : JValue → Bool
  | .null => false
  | .bool b => b
  | .num n => n ≠ 0
  | .str s => s ≠ ""
  | .arr xs => !xs.isEmpty
  | .obj kvs => !kvs.isEmpty

/-- The single-quote character, kept out of literals. -/
def sq : Char := Char.ofNat 39

/-- The double-quote character, kept out of literals. -/
def dq : Char := Char.ofNat 34

/-- Escaping of one character inside a Python string repr quoted by `q`
(backslash, quote, and the common control characters; other characters are
kept verbatim, which matches Python for printable text). -/
def pyReprEsc (q : Char) (c : Char) : List Char :=
  if c = '\\' then ['\\', '\\']
  else if c = q then ['\\', q]
  else if c = '\n' then ['\\', 'n']
  else if c = '\r' then ['\\', 'r']
  else if c = '\t' then ['\\', 't']
  else [c]

/-- Python `repr` of a string: single-quoted unless the text holds a single
quote and no double quote. -/
def pyReprStr (s : String) : String :=
  let q := if s.toList.contains sq && !(s.toList.contains dq) then dq else sq
  String.mk (q :: s.toList.flatMap (pyReprEsc q) ++ [q])

mutual

/-- Python `repr` of a decoded JSON value (reached by `str()` only for lists
and dicts; no claim exercises these cases). -/
def pyRepr : JValue → String
  | .null => "None"
  | .bool b => if b then "True" else "False"
  | .num n => toString n
  | .str s => pyReprStr s
  | .arr xs => "[" ++ pyReprList xs ++ "]"
  | .obj kvs => "\x7b" ++ pyReprObj kvs ++ "\x7d"

/-- Comma-joined reprs of list elements. -/
def pyReprList : List JValue → String
  | [] => ""
  | [x] => pyRepr x
  | x :: y :: rest => pyRepr x ++ ", " ++ pyReprList (y :: rest)

/-- Comma-joined reprs of dict entries. -/
def pyReprObj : List (String × JValue) → String
  | [] => ""
  | [(k, v)] => pyReprStr k ++ ": " ++ pyRepr v
  | (k, v) :: e :: rest => pyReprStr k ++ ": " ++ pyRepr v ++ ", " ++ pyReprObj (e :: rest)

end

/-- Python `str()` of a decoded JSON value, as used by f-string interpolation. -/
def pyStr : JValue → String
  | .null => "None"
  | .bool b => if b then "True" else "False"
  | .num n => toString n
  | .str s => s
  | .arr xs => pyRepr (.arr xs)
  | .obj kvs => pyRepr (.obj kvs)

/-- Python iteration over a decoded JSON value: lists yield elements, strings
yield one-character strings, dicts yield their keys, everything else raises
`TypeError`. -/
def pyIterate : JValue → Except String (List JValue)
  | .arr xs => .ok xs
  | .str s => .ok (s.toList.map (fun c => .str (String.mk [c])))
  | .obj kvs => .ok (kvs.map (fun kv => .str kv.1))
  | _ => .error "TypeError: object is not iterable"

/-- Python `k in v` for a string key: dicts test key membership, lists test
element membership, strings test substring containment, everything else
raises `TypeError`. -/
def pyContainsKey (v : JValue) (k : String) : Except String Bool :=
  match v with
  | .obj kvs => .ok (jlookup kvs k).isSome
  | .arr xs => .ok (xs.any (fun x => match x with | .str s => s = k | _ => false))
  | .str s => .ok (containsSub s.toList k.toList)
  | _ => .error "TypeError: argument not a container"

/-- Python `v[k]` for a string key: only dicts support it, a missing key
raises `KeyError`. -/
def pyIndexGet (v : JValue) (k : String) : Except String JValue :=
  match v with
  | .obj kvs =>
    match jlookup kvs k with
    | some x => .ok x
    | none => .error "KeyError"
  | _ => .error "TypeError: not subscriptable by string"

/-- Python dict assignment `d[k] = v` on the binding list: replace the
binding in place when the key is present, append it otherwise. -/
def objSetKvs (kvs : List (String × JValue)) (k : String) (v : JValue) :
    List (String × JValue) :=
  match kvs with
  | [] => [(k, v)]
  | (k', v') :: rest => if k' = k then (k, v) :: rest else (k', v') :: objSetKvs rest k v

/-- Python dict assignment on a JSON object (only ever applied to objects). -/
def objSet (j : JValue) (k : String) (v : JValue) : JValue :=
  match j with
  | .obj kvs => .obj (objSetKvs kvs k v)
  | x => x

/-! ## The two `re.search` calls of `read_epub`

The patterns are fixed in the source, so each search is embedded directly:
a leftmost scan with greedy quantifiers and minimal backtracking, following
the Python `re` semantics for these two patterns. -/

/-- Backtracking for `\s+([^\n,]+)` after a match of `[Bb]y`: the whitespace
run takes `w ≥ 1` characters, largest first, and the group is the maximal
following run free of newline and comma, which must be non-empty. -/
def byTryWs : Nat → List Char → Option (List Char)
  | 0, _ => none
  | w + 1, rest =>
    let grp := (rest.drop (w + 1)).takeWhile (fun c => !(c = '\n' || c = ','))
    if grp.isEmpty then byTryWs w rest else some grp

/-- Match of `[Bb]y\s+([^\n,]+)` anchored at the head of the list (word
boundary already checked by the caller). -/
def matchByAt : List Char → Option (List Char)
  | c0 :: c1 :: rest =>
    if (c0 = 'B' || c0 = 'b') && c1 = 'y' then
      byTryWs (rest.takeWhile pyIsSpace).length rest
    else none
  | _ => none

/-- Leftmost search for `\b[Bb]y\s+([^\n,]+)`; `prevWord` tracks whether the
previous character was a word character (for the `\b` assertion). -/
def searchByGo : Bool → List Char → Option (List Char)
  | _, [] => none
  | prevWord, c :: rest =>
    match (if prevWord then none else matchByAt (c :: rest)) with
    | some g => some g
    | none => searchByGo (isWordChar c) rest

/-- `re.search(r"\b[Bb]y\s+([^\n,]+)", s)`, returning group 1. -/
def searchBy (s : String) : Option String :=
  (searchByGo false s.toList).map String.mk

/-- Backtracking for `\s*([^\n]+)`: the whitespace run takes `w ≥ 0`
characters, largest first, and the group is the maximal following
newline-free run, which must be non-empty. -/
def pubTryWs : Nat → List Char → Option (List Char)
  | 0, rest =>
    let grp := rest.takeWhile (fun c => c ≠ '\n')
    if grp.isEmpty then none else some grp
  | w + 1, rest =>
    let grp := (rest.drop (w + 1)).takeWhile (fun c => c ≠ '\n')
    if grp.isEmpty then pubTryWs w rest else some grp

/-- Match of `[Pp]ublisher:?\s*([^\n]+)` anchored at the head of the list;
the optional colon is tried first (greedy), then dropped on failure. -/
def matchPubAt : List Char → Option (List Char)
  | c0 :: 'u' :: 'b' :: 'l' :: 'i' :: 's' :: 'h' :: 'e' :: 'r' :: rest =>
    if c0 = 'P' || c0 = 'p' then
      match rest with
      | ':' :: rest2 =>
        match pubTryWs (rest2.takeWhile pyIsSpace).length rest2 with
        | some g => some g
        | none => pubTryWs (rest.takeWhile pyIsSpace).length rest
      | _ => pubTryWs (rest.takeWhile pyIsSpace).length rest
    else none
  | _ => none

/-- Leftmost scan for `[Pp]ublisher:?\s*([^\n]+)` (no boundary assertion). -/
def searchPubGo : List Char → Option (List Char)
  | [] => none
  | c :: rest =>
    match matchPubAt (c :: rest) with
    | some g => some g
    | none => searchPubGo rest

/-- `re.search(r"[Pp]ublisher:?\s*([^\n]+)", s)`, returning group 1. -/
def searchPublisher (s : String) : Option String :=
  (searchPubGo s.toList).map String.mk

/-! ## Markup model and the Content Extractor (`extract_texts_from_item`)

`HNode` models the parsed markup tree handed to BeautifulSoup; an item holds
the parsed forest of its content.  `find` and `find_all` with a list of names
return matches in document (pre-order) order, as BeautifulSoup does. -/

inductive HNode where
  | elem (tag : String) (children : List HNode)
  | txt (s : String)

mutual

/-- All text fragments of a subtree, in document order. -/
def collectStrings : HNode → List String
  | .txt s => [s]
  | .elem _ cs => collectStringsList cs

/-- All text fragments of a forest, in document order. -/
def collectStringsList : List HNode → List String
  | [] => []
  | n :: rest => collectStrings n ++ collectStringsList rest

end

/-- `get_text(sep, strip=True)` on one node: each fragment is stripped,
empty fragments are dropped, and the rest are joined with `sep`. -/
def getText1 (sep : String) (n : HNode) : String :=
  String.intercalate sep (((collectStrings n).map pyStrip).filter (fun t => t ≠ ""))

/-- `get_text(sep, strip=True)` on the whole parsed forest. -/
def getText (sep : String) (ns : List HNode) : String :=
  String.intercalate sep (((collectStringsList ns).map pyStrip).filter (fun t => t ≠ ""))

mutual

/-- BeautifulSoup `find` with a list of names on one node: first element in
pre-order whose tag is in the list. -/
def findFirst (tags : List String) : HNode → Option HNode
  | .txt _ => none
  | .elem t cs =>
    if tags.contains t then some (.elem t cs) else findFirstList tags cs

/-- BeautifulSoup `find` with a list of names on a forest. -/
def findFirstList (tags : List String) : List HNode → Option HNode
  | [] => none
  | n :: rest =>
    match findFirst tags n with
    | some h => some h
    | none => findFirstList tags rest

end

mutual

/-- BeautifulSoup `find_all` with a list of names on one node, pre-order. -/
def findAll (tags : List String) : HNode → List HNode
  | .txt _ => []
  | .elem t cs =>
    (if tags.contains t then [HNode.elem t cs] else []) ++ findAllList tags cs

/-- BeautifulSoup `find_all` with a list of names on a forest. -/
def findAllList (tags : List String) : List HNode → List HNode
  | [] => []
  | n :: rest => findAll tags n ++ findAllList tags rest

end

/-- One content subunit of the container: its retrievable name, whether it is
a document item (`ITEM_DOCUMENT`), and its parsed markup forest. -/
structure EpubItem where
  name : String
  isDocument : Bool
  content : List HNode

/-- `extract_texts_from_item` of `src/ingest/epub_to_json.py`: section label
and paragraph blocks of one content subunit. -/
def extract_texts_from_item (item : EpubItem) : String × List String :=
  let soup := item.content
  let chapter : Option String :=
    match findFirstList ["h1", "h2", "h3", "title"] soup with
    | some h => some (getText1 " " h)
    | none => none
  let texts :=
    ((findAllList ["p", "li", "pre"] soup).map (fun t => getText1 "\n" t)).filter
      (fun t => t ≠ "")
  let texts :=
    if texts.isEmpty then
      let body :=
        match findFirstList ["body"] soup with
        | some b => getText1 "\n" b
        | none => getText "\n" soup
      ((pySplitNN body).map pyStrip).filter (fun t => t ≠ "")
    else texts
  let label :=
    match chapter with
    | some c => if c ≠ "" then c else item.name
    | none => item.name
  (label, texts)

/-! ## Container metadata model, `_meta_values`, `_pick_stable_id`, `read_epub`

`EpubBook` models the parsed container as `ebooklib` presents it to the
code: the `uid` attribute, and for each Dublin Core key read by the source
the list of `(value, attrs.get("id"))` pairs returned by `get_metadata`
(only the `id` entry of the attrs dict is ever read).  The code passes the
file path only for its stem and for the raw bytes, which are modelled as
separate arguments. -/

structure EpubBook where
  uid : Option String
  identifier : List (JValue × Option String)
  title : List (JValue × Option String)
  creator : List (JValue × Option String)
  publisher : List (JValue × Option String)
  language : List (JValue × Option String)
  description : List (JValue × Option String)
  subject : List (JValue × Option String)
  items : List EpubItem

/-- `_meta_values`: the stripped string values of a metadata key, skipping
values that are not strings. -/
def meta_values (pairs : List (JValue × Option String)) : List String :=
  pairs.filterMap (fun p =>
    match p.1 with
    | .str s => some (pyStrip s)
    | _ => none)

/-- Python truthiness of the optional `uid` attribute. -/
def uidTruthy : Option String → Bool
  | some u => u != ""
  | none => false

/-- The identifier loop of `_pick_stable_id`: walk the `DC identifier`
pairs tracking the first non-empty value; return immediately on a value
whose `id` attribute equals the truthy `uid`; afterwards fall back to the
tracked first value, then to the SHA-1 hex digest of the raw bytes. -/
def pickGo (uid : Option String) (rawBytes : List Nat) :
    Option String → List (JValue × Option String) → String
  | first, [] =>
    match first with
    | some v => v
    | none => sha1Hex rawBytes
  | first, (v, attr) :: rest =>
    let val := pyStrip (pyStr v)
    let first' := if first.isNone && val != "" then some val else first
    if uidTruthy uid && attr == uid && val != "" then val
    else pickGo uid rawBytes first' rest

/-- `_pick_stable_id` of `src/ingest/epub_to_json.py`. -/
def pick_stable_id (book : EpubBook) (rawBytes : List Nat) : String :=
  pickGo book.uid rawBytes none book.identifier

/-- One entry of the `chapters` list built by `read_epub`. -/
structure ChapterRec where
  chapter : String
  paragraphs : List String

/-- The record assembled by `read_epub`.  Fields that the code assigns on
every path are plain strings; `language` and `description` are optional
because the code leaves the dict key absent when no value is found (so the
key is missing, i.e. null downstream). -/
structure EpubData where
  book_id : String
  source_uid : String
  title : String
  author : String
  publisher : String
  genres : String
  language : Option String
  description : Option String
  linkToBook : String
  chapters : List ChapterRec

/-- `read_epub` of `src/ingest/epub_to_json.py`, step by step in source
order.  The dict is modelled by `EpubData`; key insertion order is
irrelevant because every consumer reads the record by key. -/
def read_epub (book : EpubBook) (stem : String) (rawBytes : List Nat) : EpubData :=
  let titleVals := meta_values book.title
  let creatorVals := meta_values book.creator
  let publisherVals := meta_values book.publisher
  let languageVals := meta_values book.language
  let descriptionVals := meta_values book.description
  let subjectVals := meta_values book.subject
  -- essential_meta loop: a scalar field is set only when a value exists
  let title0 : Option String := titleVals.head?
  let publisher0 : Option String := publisherVals.head?
  let language0 : Option String := languageVals.head?
  let description0 : Option String := descriptionVals.head?
  let genres := if subjectVals.isEmpty then "" else String.intercalate ", " subjectVals
  let author0 := String.intercalate ", " (creatorVals.filter (fun a => a ≠ ""))
  -- derive source_uid and the short book_id from it
  let source_uid := pick_stable_id book rawBytes
  let book_id := (sha1Hex (utf8Encode source_uid)).take 16
  let publisher1 := publisher0.getD ""
  -- title: when falsy, retry the structured titles, then fall back to the stem
  let title1 :=
    match title0 with
    | some t => if t = "" then (match titleVals with | [] => stem | t2 :: _ => t2) else t
    | none => match titleVals with | [] => stem | t2 :: _ => t2
  -- document items with at least one extracted paragraph become chapters
  let chapters := book.items.filterMap (fun it =>
    if it.isDocument then
      match extract_texts_from_item it with
      | (c, ts) => if ts.isEmpty then none else some ⟨c, ts⟩
    else none)
  -- description fallback: three leading paragraphs of the first three chapters
  let descFalsy := match description0 with | none => true | some d => d = ""
  let joined := pyStrip (String.intercalate "\n\n"
    ((chapters.take 3).flatMap (fun ch => ch.paragraphs.take 3)))
  let description1 := if descFalsy && joined != "" then some (joined.take 2000) else description0
  -- author fallback: by-line in the first ten paragraphs of the first chapter
  let author1 :=
    match chapters with
    | [] => author0
    | ch0 :: _ =>
      if author0 = "" then
        match searchBy (String.intercalate "\n" (ch0.paragraphs.take 10)) with
        | some g => pyStrip g
        | none => author0
      else author0
  -- publisher fallback: publisher line in the first twenty paragraphs
  let publisher2 :=
    match chapters with
    | [] => publisher1
    | ch0 :: _ =>
      if publisher1 = "" then
        match searchPublisher (String.intercalate "\n" (ch0.paragraphs.take 20)) with
        | some g => pyStrip g
        | none => publisher1
      else publisher1
  -- author fallback from the file stem
  let author2 :=
    if author1 = "" then
      let slug := pyStrip (pyReplaceChar ((pySplitChar stem '_').headD "") '-' ' ')
      if slug ≠ "" ∧ (pySplitWs slug).length ≤ 4 then pyTitle slug else author1
    else author1
  -- publisher fallback: known marker in the leading paragraphs
  let publisher3 :=
    if publisher2 = "" ∧ ¬chapters.isEmpty then
      let allText := String.intercalate "\n"
        ((chapters.take 5).flatMap (fun ch => ch.paragraphs.take 50))
      if strContains allText "Standard Ebooks" then "Standard Ebooks" else publisher2
    else publisher2
  { book_id := book_id, source_uid := source_uid, title := title1,
    author := author2, publisher := publisher3, genres := genres,
    language := language0, description := description1, linkToBook := "",
    chapters := chapters }

/-- The JSON artifact written for one chapter: `json.dump` of
`\x7b"chapter": ..., "paragraphs": [...]\x7d`. -/
def chapterToJson (ch : ChapterRec) : JValue :=
  .obj [("chapter", .str ch.chapter), ("paragraphs", .arr (ch.paragraphs.map JValue.str))]

/-- The JSON artifact written for one book (`json.dump(data, ...)`); keys
whose dict entry is absent are omitted.  Consumers read it by key, so the
chosen key order is immaterial. -/
def epubDataToJson (d : EpubData) : JValue :=
  .obj ([("book_id", .str d.book_id),
         ("chapters", .arr (d.chapters.map chapterToJson)),
         ("title", .str d.title)] ++
        (match d.language with | some l => [("language", .str l)] | none => []) ++
        (match d.description with | some x => [("description", .str x)] | none => []) ++
        [("genres", .str d.genres),
         ("author", .str d.author),
         ("source_uid", .str d.source_uid),
         ("publisher", .str d.publisher),
         ("linkToBook", .str d.linkToBook)])

/-! ## Bulk Encoder (`to_bulk_actions`, `process_json_objects`)

Actions are modelled as the decoded JSON values of the emitted lines; the
`json.dumps`/`json.loads` round trip between `to_bulk_actions` and
`process_json_objects` is the identity on these values. -/

/-- The chunk-mode action metadata line: `\x7b"index": \x7b"_index": ic\x7d\x7d`,
with no `_id` key. -/
def chunkMetaOf (ic : String) : JValue :=
  .obj [("index", .obj [("_index", .str ic)])]

/-- The action/source line pair of one paragraph chunk. -/
def paraChunk (bookId : JValue) (ic : String) (chap : JValue)
    (ci pi seq : Nat) (para : JValue) : List JValue :=
  [chunkMetaOf ic,
   .obj [("book_id", bookId),
         ("chunk_id", .str (pyStr bookId ++ "-" ++ pad6 seq)),
         ("chapter", chap),
         ("chapter_index", .num ci),
         ("paragraph_index", .num pi),
         ("text", para)]]

/-- The inner paragraph loop of `to_bulk_actions`: one pair per paragraph,
advancing `paragraph_index` and the global `seq` counter. -/
def parasActions (bookId : JValue) (ic : String) (chap : JValue) (ci : Nat) :
    List JValue → Nat → Nat → List JValue
  | [], _, _ => []
  | p :: rest, pi, seq =>
    paraChunk bookId ic chap ci pi seq p ++ parasActions bookId ic chap ci rest (pi + 1) (seq + 1)

/-- The chapter loop of `to_bulk_actions`: each chapter must support `.get`
(be a dict), its `paragraphs` value (default `[]`) must be iterable, and the
global `seq` counter runs across chapters. -/
def chaptersActions (bookId : JValue) (ic : String) :
    List JValue → Nat → Nat → Except String (List JValue)
  | [], _, _ => .ok []
  | ch :: rest, ci, seq =>
    match ch with
    | .obj ckvs =>
      match pyIterate ((jlookup ckvs "paragraphs").getD (.arr [])) with
      | .error e => .error e
      | .ok paras =>
        match chaptersActions bookId ic rest (ci + 1) (seq + paras.length) with
        | .error e => .error e
        | .ok tail =>
          .ok (parasActions bookId ic ((jlookup ckvs "chapter").getD .null) ci paras 0 seq ++ tail)
    | _ => .error "AttributeError: no attribute get"

/-- The `book_doc` dict built by `to_bulk_actions` (bindings of the emitted
book source line). -/
def bookDocKvs (kvs : List (String × JValue)) : List (String × JValue) :=
  let get := fun k (d : JValue) => (jlookup kvs k).getD d
  [("book_id", get "book_id" .null),
   ("source_uid", get "source_uid" (.str "")),
   ("title", get "title" .null),
   ("author", get "author" (.str "")),
   ("publisher", get "publisher" (.str "")),
   ("description", get "description" (.str "")),
   ("genres", get "genres" (.str "")),
   ("linkToBook", get "linkToBook" (.str "")),
   ("language", get "language" .null),
   ("suggest", .obj [("input", .arr
      ((if pyTruthy (get "title" .null) then [get "title" .null] else []) ++
       (if pyTruthy (get "author" .null) then [get "author" .null] else [])))])]

/-- The emitted book source line. -/
def bookDocOf (kvs : List (String × JValue)) : JValue :=
  .obj (bookDocKvs kvs)

/-- The emitted book action metadata line, carrying `_id` equal to the
`book_id` of the book document. -/
def bookMetaOf (kvs : List (String × JValue)) (ib : String) : JValue :=
  .obj [("index", .obj [("_index", .str ib), ("_id", (jlookup kvs "book_id").getD .null)])]

/-- `to_bulk_actions` of `src/ingest/convert_json_to_ndjson.py`: the list of
emitted lines as decoded JSON values, or the Python exception the call would
raise (`AttributeError` when the input or a chapter is not a dict,
`TypeError` when a `chapters`/`paragraphs` value is not iterable). -/
def to_bulk_actions (bookJson : JValue) (ib ic : String) : Except String (List JValue) :=
  match bookJson with
  | .obj kvs =>
    match pyIterate ((jlookup kvs "chapters").getD (.arr [])) with
    | .error e => .error e
    | .ok chs =>
      match chaptersActions ((jlookup kvs "book_id").getD .null) ic chs 0 0 with
      | .error e => .error e
      | .ok rest => .ok (bookMetaOf kvs ib :: bookDocOf kvs :: rest)
  | _ => .error "AttributeError: no attribute get"

/-- `meta["index"]["_index"]` of an action line, when it is a string. -/
def metaIndexName (m : JValue) : Option String :=
  match m with
  | .obj kvs =>
    match jlookup kvs "index" with
    | some (.obj ikvs) =>
      match jlookup ikvs "_index" with
      | some (.str s) => some s
      | _ => none
    | _ => none
  | _ => none

/-- The pair loop of `process_json_objects`: route each action/source pair
by its `_index`; book pairs are kept verbatim, other pairs get a fresh
metadata line without `_id`.  `to_bulk_actions` always returns an
even-length list whose metadata lines carry a string `_index`
(`to_bulk_actions_ok_shape` below), so the fallthrough case and the
string comparison against a missing `_index` never arise from the caller. -/
def pairSplit (ib ic : String) : List JValue → List JValue × List JValue
  | m :: s :: rest =>
    let (b, c) := pairSplit ib ic rest
    if metaIndexName m = some ib then (m :: s :: b, c)
    else (b, chunkMetaOf ic :: s :: c)
  | _ => ([], [])

/-- `process_json_objects` of `src/ingest/convert_json_to_ndjson.py`: fold
the decoded JSON documents into the two output streams, skipping any
document on which `to_bulk_actions` raises. -/
def process_json_objects (ib ic : String) : List JValue → List JValue × List JValue
  | [] => ([], [])
  | d :: rest =>
    let (b, c) := process_json_objects ib ic rest
    match to_bulk_actions d ib ic with
    | .error _ => (b, c)
    | .ok acts =>
      let (b0, c0) := pairSplit ib ic acts
      (b0 ++ b, c0 ++ c)

/-! ## Embedding merge mode (`embed_from_ndjson` of `src/scripts/escli.py`)

The embedding model is an external collaborator, passed as an opaque
function `encode` from the text value to the JSON rendering of its vector.
`embedStep` is the body of the stream loop for one action/source pair; the
periodic `_bulk_post` flush only partitions the emitted lines into
transport batches and is outside the core. -/

/-- `index_override or meta["index"]["_index"]`: a truthy override wins,
otherwise the `_index` entry of the metadata is read (`KeyError` when
missing, `TypeError` when `meta["index"]` is not a dict). -/
def resolveIdx (override : Option String) (mindex : JValue) : Except String JValue :=
  let getIdx : Except String JValue :=
    match mindex with
    | .obj ikvs =>
      match jlookup ikvs "_index" with
      | some v => .ok v
      | none => .error "KeyError: _index"
    | _ => .error "TypeError: not subscriptable by string"
  match override with
  | some s => if s = "" then getIdx else .ok (.str s)
  | none => getIdx

def embedStep (encode : JValue → JValue) (override : Option String)
    (srcField tgtField : String) (meta src : JValue) : Except String (List JValue) :=
  match meta with
  | .obj mkvs =>
    match jlookup mkvs "index" with
    | none => .error "KeyError: index"
    | some mindex =>
      match resolveIdx override mindex with
      | .error e => .error e
      | .ok idxv =>
        match pyContainsKey mindex "_id" with
        | .error e => .error e
        | .ok hasId =>
          if hasId = false then
            match src with
            | .obj skvs =>
              let text := (jlookup skvs srcField).getD (.str "")
              if pyTruthy text = false then .ok []
              else .ok [.obj [("index", .obj [("_index", idxv)])],
                        objSet (.obj skvs) tgtField (encode text)]
            | _ => .error "AttributeError: no attribute get"
          else
            match pyIndexGet mindex "_id" with
            | .error e => .error e
            | .ok idv =>
              match src with
              | .obj skvs =>
                let text := (jlookup skvs srcField).getD (.str "")
                if pyTruthy text = false then .ok []
                else .ok [.obj [("update", .obj [("_index", idxv), ("_id", idv)])],
                          .obj [("doc", .obj [(tgtField, encode text)])]]
              | _ => .error "AttributeError: no attribute get"
  | _ => .error "TypeError: not subscriptable by string"

/-- `embed_from_ndjson` over a list of decoded action/source pairs: the
concatenated emissions of `embedStep`, or the first raised exception. -/
def embed_from_ndjson (encode : JValue → JValue) (override : Option String)
    (srcField tgtField : String) : List (JValue × JValue) → Except String (List JValue)
  | [] => .ok []
  | (m, s) :: rest =>
    match embedStep encode override srcField tgtField m s with
    | .error e => .error e
    | .ok out =>
      match embed_from_ndjson encode override srcField tgtField rest with
      | .error e => .error e
      | .ok outs => .ok (out ++ outs)

/-- The `chunk_id` values appearing in a list of emitted lines, in order. -/
def collectChunkIds (acts : List JValue) : List JValue :=
  acts.filterMap (fun a =>
    match a with
    | .obj kvs => jlookup kvs "chunk_id"
    | _ => none)

/-- The ordered chunk identifiers produced by the whole pipeline for one
source: extract, assemble, serialize, and read off the `chunk_id` fields. -/
def pipeline_chunk_ids (book : EpubBook) (stem : String) (rawBytes : List Nat)
    (ib ic : String) : List JValue :=
  match to_bulk_actions (epubDataToJson (read_epub book stem rawBytes)) ib ic with
  | .ok acts => collectChunkIds acts
  | .error _ => []

/-! ## Claim-side definitions

Definitions below restate notions used by the claims (well-formed Document
records, the expected identifier sequences, stream alternation, and the
fallback chains as the claims word them); the theorems compare them with the
embedded source functions above. -/

/-- An emitted line that is an action metadata line: a JSON object with an
`index` key. -/
def actionMeta (a : JValue) : Bool :=
  match a with
  | .obj kvs => (jlookup kvs "index").isSome
  | _ => false

/-- The `_id` assigned by an action metadata line, when any. -/
def metaAssignedId (a : JValue) : Option JValue :=
  match a with
  | .obj kvs =>
    match jlookup kvs "index" with
    | some (.obj ikvs) => jlookup ikvs "_id"
    | _ => none
  | _ => none

/-- Strict alternation of a bulk stream: metadata line, then one source
line (itself not a metadata line), repeated; implies an even line count. -/
def altPairs : List JValue → Bool
  | [] => true
  | m :: s :: rest => actionMeta m && !actionMeta s && altPairs rest
  | [_] => false

/-- The shape of the chunk part of an action list: pairs of the bare
chunk-mode metadata line and a source line. -/
def chunkLines (ic : String) : List JValue → Prop
  | [] => True
  | m :: s :: rest => m = chunkMetaOf ic ∧ actionMeta s = false ∧ chunkLines ic rest
  | [_] => False

/-- Every second line of a paired stream is a source line. -/
def sourcesOk : List JValue → Prop
  | [] => True
  | _ :: s :: rest => actionMeta s = false ∧ sourcesOk rest
  | [_] => True

/-- The chunk identifiers `"(book_id)-(seq zero-padded to 6)"` for `n`
consecutive sequence numbers starting at `seq`. -/
def seqIds (bid : JValue) : Nat → Nat → List JValue
  | _, 0 => []
  | seq, n + 1 => .str (pyStr bid ++ "-" ++ pad6 seq) :: seqIds bid (seq + 1) n

/-- The paragraphs list of a chapter object of a Document record. -/
def parasOfCh (ch : JValue) : List JValue :=
  match ch with
  | .obj ckvs =>
    match jlookup ckvs "paragraphs" with
    | some (.arr ps) => ps
    | _ => []
  | _ => []

/-- The chapters list of a Document record. -/
def chaptersOf (j : JValue) : List JValue :=
  match j with
  | .obj kvs =>
    match jlookup kvs "chapters" with
    | some (.arr chs) => chs
    | _ => []
  | _ => []

/-- The total paragraph count of a Document record: the sum of the
paragraph counts of its chapters, in order. -/
def paraCount (j : JValue) : Nat :=
  ((chaptersOf j).map (fun ch => (parasOfCh ch).length)).sum

/-- A well-formed chapter of a Document record: an object whose
`paragraphs` entry, when present, is a list. -/
def wfChapter (ch : JValue) : Bool :=
  match ch with
  | .obj ckvs =>
    match jlookup ckvs "paragraphs" with
    | none => true
    | some (.arr _) => true
    | some _ => false
  | _ => false

/-- A well-formed Document record: an object whose `chapters` entry, when
present, is a list of well-formed chapters. -/
def wfBook (j : JValue) : Bool :=
  match j with
  | .obj kvs =>
    match jlookup kvs "chapters" with
    | none => true
    | some (.arr chs) => chs.all wfChapter
    | some _ => false
  | _ => false

/-- Claim wording (Identity Deriver, step 1): the identifier value whose tag
matches the designated preferred-identifier marker, if any. -/
def preferredIdValue (uid : Option String) (pairs : List (JValue × Option String)) :
    Option String :=
  match uid with
  | none => none
  | some u => (pairs.find? (fun p => p.2 == some u)).map (fun p => pyStr p.1)

/-- Claim wording (Identity Deriver, step 2): the first identifier value
found, if any. -/
def firstIdValue (pairs : List (JValue × Option String)) : Option String :=
  pairs.head?.map (fun p => pyStr p.1)

/-- Identifier metadata whose values are non-blank pre-stripped strings (the
scope on which the three-step claim wording is exact). -/
def goodIdPairs (pairs : List (JValue × Option String)) : Bool :=
  pairs.all (fun p =>
    match p.1 with
    | .str s => pyStrip s == s && s != ""
    | _ => false)

/-- Claim wording (author fallback from the file name): the segment before
the first underscore, hyphens replaced by spaces, title-cased, accepted only
with at most four words, else the empty string. -/
def stemAuthorFallback (stem : String) : String :=
  let slug := pyStrip (pyReplaceChar ((pySplitChar stem '_').headD "") '-' ' ')
  if slug ≠ "" ∧ (pySplitWs slug).length ≤ 4 then pyTitle slug else ""

/-- Claim wording (author recovery): the by-line group found in the leading
paragraphs of the first section, stripped. -/
def byLineAuthor (chs : List ChapterRec) : Option String :=
  match chs with
  | [] => none
  | ch0 :: _ => (searchBy (String.intercalate "\n" (ch0.paragraphs.take 10))).map pyStrip

/-- Amended claim wording (Content Extractor label): the text of the first
element in document order among the two heading levels, third heading level
and title element; the subunit name when there is none or its text is
empty. -/
def labelDocOrder (it : EpubItem) : String :=
  match findFirstList ["h1", "h2", "h3", "title"] it.content with
  | some h =>
    let t := getText1 " " h
    if t = "" then it.name else t
  | none => it.name

/-! ## Helper lemmas -/

theorem actionMeta_bookMetaOf (kvs : List (String × JValue)) (ib : String) :
    actionMeta (bookMetaOf kvs ib) = true := rfl

theorem actionMeta_bookDocOf (kvs : List (String × JValue)) :
    actionMeta (bookDocOf kvs) = false := rfl

theorem actionMeta_chunkMetaOf (ic : String) : actionMeta (chunkMetaOf ic) = true := rfl

theorem metaAssignedId_chunkMetaOf (ic : String) : metaAssignedId (chunkMetaOf ic) = none := rfl

theorem metaIndexName_chunkMetaOf (ic : String) : metaIndexName (chunkMetaOf ic) = some ic := rfl

theorem metaIndexName_bookMetaOf (kvs : List (String × JValue)) (ib : String) :
    metaIndexName (bookMetaOf kvs ib) = some ib := rfl

theorem collectChunkIds_append (a b : List JValue) :
    collectChunkIds (a ++ b) = collectChunkIds a ++ collectChunkIds b := by
  simp [collectChunkIds, List.filterMap_append]

theorem collectChunkIds_paraChunk (bookId : JValue) (ic : String) (chap : JValue)
    (ci pi seq : Nat) (para : JValue) :
    collectChunkIds (paraChunk bookId ic chap ci pi seq para) =
      [.str (pyStr bookId ++ "-" ++ pad6 seq)] := rfl

theorem parasActions_ids (bookId : JValue) (ic : String) (chap : JValue) (ci : Nat) :
    ∀ (ps : List JValue) (pi seq : Nat),
      collectChunkIds (parasActions bookId ic chap ci ps pi seq) =
        seqIds bookId seq ps.length
  | [], _, _ => rfl
  | p :: ps, pi, seq => by
    have ih := parasActions_ids bookId ic chap ci ps (pi + 1) (seq + 1)
    simp only [parasActions, collectChunkIds_append, collectChunkIds_paraChunk, ih,
      List.length_cons, seqIds, List.singleton_append]

theorem seqIds_add (bid : JValue) : ∀ (a seq b : Nat),
    seqIds bid seq (a + b) = seqIds bid seq a ++ seqIds bid (seq + a) b
  | 0, seq, b => by simp [seqIds]
  | a + 1, seq, b => by
    have ih := seqIds_add bid a (seq + 1) b
    have h1 : a + 1 + b = (a + b) + 1 := by omega
    have h2 : seq + 1 + a = seq + (a + 1) := by omega
    rw [h1]
    simp only [seqIds, ih, List.cons_append, h2]

theorem seqIds_eq_range' (bid : JValue) : ∀ (n seq : Nat),
    seqIds bid seq n = (List.range' seq n).map (fun i => JValue.str (pyStr bid ++ "-" ++ pad6 i))
  | 0, _ => rfl
  | n + 1, seq => by
    simp [seqIds, List.range', seqIds_eq_range' bid n (seq + 1)]

theorem wfChapter_paras {ckvs : List (String × JValue)}
    (h : wfChapter (.obj ckvs) = true) :
    pyIterate ((jlookup ckvs "paragraphs").getD (.arr [])) = .ok (parasOfCh (.obj ckvs)) := by
  rcases hl : jlookup ckvs "paragraphs" with _ | v
  · simp [pyIterate, hl, parasOfCh]
  · cases v with
    | arr ps => simp [pyIterate, parasOfCh, hl]
    | null => simp [wfChapter, hl] at h
    | bool b => simp [wfChapter, hl] at h
    | num n => simp [wfChapter, hl] at h
    | str s => simp [wfChapter, hl] at h
    | obj o => simp [wfChapter, hl] at h

theorem wfBook_chapters {kvs : List (String × JValue)} (h : wfBook (.obj kvs) = true) :
    pyIterate ((jlookup kvs "chapters").getD (.arr [])) = .ok (chaptersOf (.obj kvs)) ∧
    ∀ ch ∈ chaptersOf (.obj kvs), wfChapter ch = true := by
  rcases hl : jlookup kvs "chapters" with _ | v
  · exact ⟨by simp [pyIterate, hl, chaptersOf], by simp [chaptersOf, hl]⟩
  · cases v with
    | arr chs =>
      refine ⟨by simp [pyIterate, hl, chaptersOf], ?_⟩
      simp only [wfBook, hl, List.all_eq_true] at h
      simpa [chaptersOf, hl] using h
    | null => simp [wfBook, hl] at h
    | bool b => simp [wfBook, hl] at h
    | num n => simp [wfBook, hl] at h
    | str s => simp [wfBook, hl] at h
    | obj o => simp [wfBook, hl] at h

theorem chaptersActions_wf_ok (bookId : JValue) (ic : String) :
    ∀ (chs : List JValue), (∀ ch ∈ chs, wfChapter ch = true) → ∀ (ci seq : Nat),
      ∃ res, chaptersActions bookId ic chs ci seq = .ok res ∧
        collectChunkIds res =
          seqIds bookId seq ((chs.map (fun ch => (parasOfCh ch).length)).sum) := by
  intro chs
  induction chs with
  | nil => exact fun _ ci seq => ⟨[], rfl, rfl⟩
  | cons ch chs ih =>
    intro hwf ci seq
    have hch := hwf ch (List.mem_cons_self ch chs)
    have hrest := fun c hc => hwf c (List.mem_cons_of_mem ch hc)
    obtain ⟨res, hres, hids⟩ := ih hrest (ci + 1) (seq + (parasOfCh ch).length)
    match ch, hch with
    | .obj ckvs, hch =>
      have hit := wfChapter_paras hch
      refine ⟨parasActions bookId ic ((jlookup ckvs "chapter").getD .null) ci
          (parasOfCh (.obj ckvs)) 0 seq ++ res, ?_, ?_⟩
      · simp only [chaptersActions, hit, hres]
      · rw [collectChunkIds_append, parasActions_ids, hids, List.map_cons, List.sum_cons,
          seqIds_add]

theorem chunkLines_parasActions (bookId : JValue) (ic : String) (chap : JValue) (ci : Nat) :
    ∀ (ps : List JValue) (pi seq : Nat),
      chunkLines ic (parasActions bookId ic chap ci ps pi seq)
  | [], _, _ => trivial
  | p :: ps, pi, seq => by
    show chunkLines ic (paraChunk bookId ic chap ci pi seq p ++ _)
    exact ⟨rfl, rfl, chunkLines_parasActions bookId ic chap ci ps (pi + 1) (seq + 1)⟩

theorem chunkLines_append (ic : String) :
    ∀ (a : List JValue), chunkLines ic a → ∀ (b : List JValue), chunkLines ic b →
      chunkLines ic (a ++ b)
  | [], _, _, hb => hb
  | _ :: _ :: rest, h, b, hb => ⟨h.1, h.2.1, chunkLines_append ic rest h.2.2 b hb⟩
  | [_], h, _, _ => h.elim

theorem chaptersActions_shape (bookId : JValue) (ic : String) :
    ∀ (chs : List JValue) (ci seq : Nat) (res : List JValue),
      chaptersActions bookId ic chs ci seq = .ok res → chunkLines ic res := by
  intro chs
  induction chs with
  | nil =>
    intro ci seq res h
    cases h
    trivial
  | cons ch chs ih =>
    intro ci seq res h
    match ch with
    | .null | .bool _ | .num _ | .str _ | .arr _ => simp [chaptersActions] at h
    | .obj ckvs =>
      simp only [chaptersActions] at h
      rcases hit : pyIterate ((jlookup ckvs "paragraphs").getD (.arr [])) with e | paras
      · rw [hit] at h; cases h
      rw [hit] at h
      dsimp only at h
      rcases hrec : chaptersActions bookId ic chs (ci + 1) (seq + paras.length) with e | tail
      · rw [hrec] at h; cases h
      rw [hrec] at h
      dsimp only at h
      simp only [Except.ok.injEq] at h
      subst h
      exact chunkLines_append ic _ (chunkLines_parasActions bookId ic _ ci paras 0 seq)
        _ (ih (ci + 1) (seq + paras.length) tail hrec)

theorem to_bulk_actions_ok_shape {j : JValue} {ib ic : String} {acts : List JValue}
    (h : to_bulk_actions j ib ic = .ok acts) :
    ∃ kvs chs rest, j = .obj kvs ∧
      pyIterate ((jlookup kvs "chapters").getD (.arr [])) = .ok chs ∧
      chaptersActions ((jlookup kvs "book_id").getD .null) ic chs 0 0 = .ok rest ∧
      acts = bookMetaOf kvs ib :: bookDocOf kvs :: rest := by
  match j with
  | .null | .bool _ | .num _ | .str _ | .arr _ => simp [to_bulk_actions] at h
  | .obj kvs =>
    simp only [to_bulk_actions] at h
    rcases hit : pyIterate ((jlookup kvs "chapters").getD (.arr [])) with e | chs
    · rw [hit] at h; cases h
    rw [hit] at h
    dsimp only at h
    rcases hca : chaptersActions ((jlookup kvs "book_id").getD .null) ic chs 0 0 with e | rest
    · rw [hca] at h; cases h
    rw [hca] at h
    dsimp only at h
    simp only [Except.ok.injEq] at h
    exact ⟨kvs, chs, rest, rfl, hit, hca, h.symm⟩

theorem altPairs_append : ∀ (a : List JValue), altPairs a = true →
    ∀ (b : List JValue), altPairs b = true → altPairs (a ++ b) = true
  | [], _, _, hb => hb
  | m :: s :: rest, h, b, hb => by
    simp only [altPairs, Bool.and_eq_true] at h
    simp only [List.cons_append, altPairs, Bool.and_eq_true]
    exact ⟨h.1, altPairs_append rest h.2 b hb⟩
  | [_], h, _, _ => by simp [altPairs] at h

theorem chunkLines_altPairs (ic : String) :
    ∀ (l : List JValue), chunkLines ic l → altPairs l = true
  | [], _ => rfl
  | m :: s :: rest, h => by
    rw [show chunkLines ic (m :: s :: rest) =
        (m = chunkMetaOf ic ∧ actionMeta s = false ∧ chunkLines ic rest) from rfl] at h
    have ih := chunkLines_altPairs ic rest h.2.2
    simp [altPairs, h.1, actionMeta_chunkMetaOf, h.2.1, ih]
  | [_], h => h.elim

theorem altPairs_even : ∀ (l : List JValue), altPairs l = true → l.length % 2 = 0
  | [], _ => rfl
  | m :: s :: rest, h => by
    simp only [altPairs, Bool.and_eq_true] at h
    have := altPairs_even rest h.2
    simp only [List.length_cons]
    omega
  | [_], h => by simp [altPairs] at h

theorem pairSplit_chunkLines {ib ic : String} (hne : ib ≠ ic) :
    ∀ (l : List JValue), chunkLines ic l → pairSplit ib ic l = ([], l)
  | [], _ => rfl
  | m :: s :: rest, h => by
    rw [show chunkLines ic (m :: s :: rest) =
        (m = chunkMetaOf ic ∧ actionMeta s = false ∧ chunkLines ic rest) from rfl] at h
    have ih := pairSplit_chunkLines hne rest h.2.2
    have hcond : ¬(some ic = some ib) := fun hcontra => hne (Option.some.inj hcontra).symm
    simp only [pairSplit, ih, h.1, metaIndexName_chunkMetaOf, if_neg hcond]
  | [_], h => h.elim

theorem chunkLines_sourcesOk (ic : String) : ∀ (l : List JValue), chunkLines ic l → sourcesOk l
  | [], _ => trivial
  | m :: s :: rest, h => by
    rw [show chunkLines ic (m :: s :: rest) =
        (m = chunkMetaOf ic ∧ actionMeta s = false ∧ chunkLines ic rest) from rfl] at h
    exact ⟨h.2.1, chunkLines_sourcesOk ic rest h.2.2⟩
  | [_], h => h.elim

theorem pairSplit_snd_noId (ib ic : String) :
    ∀ (l : List JValue), sourcesOk l →
      ∀ a ∈ (pairSplit ib ic l).2, actionMeta a = true → metaAssignedId a = none
  | [], _, a, ha, _ => by simp [pairSplit] at ha
  | [x], _, a, ha, _ => by simp [pairSplit] at ha
  | m :: s :: rest, hso, a, ha, hm => by
    rw [show sourcesOk (m :: s :: rest) =
        (actionMeta s = false ∧ sourcesOk rest) from rfl] at hso
    obtain ⟨h2, h3⟩ := hso
    have ih := pairSplit_snd_noId ib ic rest h3
    by_cases hc : metaIndexName m = some ib
    · rw [show pairSplit ib ic (m :: s :: rest) =
          (m :: s :: (pairSplit ib ic rest).1, (pairSplit ib ic rest).2) from by
        simp [pairSplit, hc]] at ha
      exact ih a ha hm
    · rw [show pairSplit ib ic (m :: s :: rest) =
          ((pairSplit ib ic rest).1, chunkMetaOf ic :: s :: (pairSplit ib ic rest).2) from by
        simp [pairSplit, hc]] at ha
      simp only [List.mem_cons] at ha
      rcases ha with ha | ha | ha
      · subst ha; exact metaAssignedId_chunkMetaOf ic
      · subst ha; rw [h2] at hm; cases hm
      · exact ih a ha hm

theorem collectChunkIds_book_cons (kvs : List (String × JValue)) (ib : String)
    (rest : List JValue) :
    collectChunkIds (bookMetaOf kvs ib :: bookDocOf kvs :: rest) = collectChunkIds rest := rfl

theorem intercalate_nil (s : String) : s.intercalate [] = "" := rfl

theorem pyStrip_empty : pyStrip "" = "" := rfl

/-- The identifier loop of `_pick_stable_id` equals the three-step claim
wording, on identifier metadata whose values are non-blank pre-stripped
strings and with a marker that is absent or non-empty. -/
theorem pickGo_eq (uid : Option String) (rawBytes : List Nat) (huid : uid ≠ some "") :
    ∀ (pairs : List (JValue × Option String)), goodIdPairs pairs = true →
    ∀ (first : Option String),
      pickGo uid rawBytes first pairs =
        (match preferredIdValue uid pairs with
         | some v => v
         | none =>
           match first with
           | some f => f
           | none =>
             match firstIdValue pairs with
             | some v => v
             | none => sha1Hex rawBytes) := by
  intro pairs
  induction pairs with
  | nil =>
    intro _ first
    cases uid with
    | none => cases first with
      | none => rfl
      | some f => rfl
    | some u => cases first with
      | none => rfl
      | some f => rfl
  | cons p rest ih =>
    intro hg first
    obtain ⟨v, attr⟩ := p
    simp only [goodIdPairs, List.all_cons, Bool.and_eq_true] at hg
    obtain ⟨hv, hrest⟩ := hg
    have hrest' : goodIdPairs rest = true := hrest
    match v, hv with
    | .str s, hv =>
      simp only [Bool.and_eq_true, beq_iff_eq, bne_iff_ne, ne_eq] at hv
      obtain ⟨hstrip, hsne⟩ := hv
      have hbs : (s != "") = true := by simp [hsne]
      have hfirstv : firstIdValue ((JValue.str s, attr) :: rest) = some s := by
        simp [firstIdValue, pyStr]
      cases uid with
      | none =>
        have hstep : pickGo none rawBytes first ((JValue.str s, attr) :: rest) =
            pickGo none rawBytes (if first.isNone then some s else first) rest := by
          simp [pickGo, pyStr, hstrip, hbs, uidTruthy]
        have hpref : preferredIdValue none ((JValue.str s, attr) :: rest) = none := rfl
        rw [hstep, ih hrest' (if first.isNone then some s else first), hpref]
        cases first with
        | none => simp [preferredIdValue, hfirstv]
        | some f => simp [preferredIdValue]
      | some u =>
        have hu : u ≠ "" := fun h => huid (by rw [h])
        have hut : uidTruthy (some u) = true := by simp [uidTruthy, hu]
        by_cases hattr : attr = some u
        · -- the preferred marker matches: immediate return
          subst hattr
          have hstep : pickGo (some u) rawBytes first ((JValue.str s, some u) :: rest) = s := by
            simp [pickGo, pyStr, hstrip, hbs, hut]
          have hpref : preferredIdValue (some u) ((JValue.str s, some u) :: rest) = some s := by
            simp [preferredIdValue, List.find?_cons_of_pos, pyStr]
          rw [hstep, hpref]
        · have hne2 : (attr == some u) = false := by simp [hattr]
          have hstep : pickGo (some u) rawBytes first ((JValue.str s, attr) :: rest) =
              pickGo (some u) rawBytes (if first.isNone then some s else first) rest := by
            simp [pickGo, pyStr, hstrip, hbs, hut, hne2]
          have hpref : preferredIdValue (some u) ((JValue.str s, attr) :: rest) =
              preferredIdValue (some u) rest := by
            simp [preferredIdValue, List.find?_cons_of_neg, hne2]
          rw [hstep, ih hrest' (if first.isNone then some s else first), hpref]
          cases hp : preferredIdValue (some u) rest with
          | some v2 => simp [hp]
          | none => cases first with
            | none => simp [hp, hfirstv]
            | some f => simp [hp]

/-- The chunk identifiers read off a serialized Document depend only on its
`book_id` and `chapters` entries: the book lines carry no `chunk_id`, and
both the success of the serialization and every emitted chunk line are
computed from those two entries alone. -/
theorem chunk_ids_book_chapters_only (kvs₁ kvs₂ : List (String × JValue)) (ib ic : String)
    (hb : jlookup kvs₁ "book_id" = jlookup kvs₂ "book_id")
    (hch : jlookup kvs₁ "chapters" = jlookup kvs₂ "chapters") :
    (match to_bulk_actions (.obj kvs₁) ib ic with
     | .ok acts => collectChunkIds acts
     | .error _ => ([] : List JValue)) =
    (match to_bulk_actions (.obj kvs₂) ib ic with
     | .ok acts => collectChunkIds acts
     | .error _ => ([] : List JValue)) := by
  simp only [to_bulk_actions, hb, hch]
  rcases pyIterate ((jlookup kvs₂ "chapters").getD (.arr [])) with e | chs
  · rfl
  · dsimp only
    rcases chaptersActions ((jlookup kvs₂ "book_id").getD .null) ic chs 0 0 with e | rest
    · rfl
    · dsimp only
      exact (collectChunkIds_book_cons kvs₁ ib rest).trans
        (collectChunkIds_book_cons kvs₂ ib rest).symm

/-- C1: determinism and independence of filesystem naming — running the
pipeline twice on the same raw source bytes and the same structured
metadata, even under different source file names, yields the same
`source_uid`, the same `book_id`, and the identical ordered sequence of
`chunk_id` values: the derivation is a function of the document content and
metadata alone (the file stem can reach only the `title`/`author` fallback
fields, never the identifiers). -/
theorem determinism_of_pipeline (b₁ b₂ : EpubBook) (s₁ s₂ : String)
    (y₁ y₂ : List Nat) (ib ic : String)
    (hb : b₁ = b₂) (hy : y₁ = y₂) :
    (read_epub b₁ s₁ y₁).source_uid = (read_epub b₂ s₂ y₂).source_uid ∧
    (read_epub b₁ s₁ y₁).book_id = (read_epub b₂ s₂ y₂).book_id ∧
    pipeline_chunk_ids b₁ s₁ y₁ ib ic = pipeline_chunk_ids b₂ s₂ y₂ ib ic := by
  subst hb; subst hy
  have hbook : (read_epub b₁ s₁ y₁).book_id = (read_epub b₁ s₂ y₁).book_id := by
    simp only [read_epub]
  have hchap : (read_epub b₁ s₁ y₁).chapters = (read_epub b₁ s₂ y₁).chapters := by
    simp only [read_epub]
  refine ⟨?_, hbook, ?_⟩
  · simp only [read_epub]
  · simp only [pipeline_chunk_ids]
    apply chunk_ids_book_chapters_only
    · show some (JValue.str (read_epub b₁ s₁ y₁).book_id) =
        some (JValue.str (read_epub b₁ s₂ y₁).book_id)
      rw [hbook]
    · show some (JValue.arr ((read_epub b₁ s₁ y₁).chapters.map chapterToJson)) =
        some (JValue.arr ((read_epub b₁ s₂ y₁).chapters.map chapterToJson))

      rw [hchap]

/-- Witness for C1: two runs on one concrete document under two different
file names. -/
theorem determinism_of_pipeline_witness :
    ((⟨none, [(.str "u", none)], [], [], [], [], [], [],
        [⟨"it", true, [.elem "p" [.txt "hello"]]⟩]⟩ : EpubBook) =
      ⟨none, [(.str "u", none)], [], [], [], [], [], [],
        [⟨"it", true, [.elem "p" [.txt "hello"]]⟩]⟩) ∧
    ((read_epub ⟨none, [(.str "u", none)], [], [], [], [], [], [],
        [⟨"it", true, [.elem "p" [.txt "hello"]]⟩]⟩ "nameA" []).source_uid =
      (read_epub ⟨none, [(.str "u", none)], [], [], [], [], [], [],
        [⟨"it", true, [.elem "p" [.txt "hello"]]⟩]⟩ "nameB" []).source_uid ∧
     (read_epub ⟨none, [(.str "u", none)], [], [], [], [], [], [],
        [⟨"it", true, [.elem "p" [.txt "hello"]]⟩]⟩ "nameA" []).book_id =
      (read_epub ⟨none, [(.str "u", none)], [], [], [], [], [], [],
        [⟨"it", true, [.elem "p" [.txt "hello"]]⟩]⟩ "nameB" []).book_id ∧
     pipeline_chunk_ids ⟨none, [(.str "u", none)], [], [], [], [], [], [],
        [⟨"it", true, [.elem "p" [.txt "hello"]]⟩]⟩ "nameA" [] "books" "book_content" =
      pipeline_chunk_ids ⟨none, [(.str "u", none)], [], [], [], [], [], [],
        [⟨"it", true, [.elem "p" [.txt "hello"]]⟩]⟩ "nameB" [] "books" "book_content") :=
  ⟨rfl, determinism_of_pipeline _ _ "nameA" "nameB" [] [] "books" "book_content" rfl rfl⟩

/-- C3: the Identity Deriver returns the identifier value whose tag matches
the designated preferred-identifier marker when such a value exists, else
the first identifier value found, else the SHA-1 hex digest of the raw
source bytes; and `book_id` is always the first 16 hex characters of the
SHA-1 digest of the UTF-8 encoding of `source_uid`.  Scope: the marker,
when present, is non-empty, and the identifier values are non-blank
pre-stripped strings (the code strips values and skips blank ones, a detail
the claim does not mention). -/
theorem pick_stable_id_spec (book : EpubBook) (stem : String) (rawBytes : List Nat)
    (huid : book.uid ≠ some "") (hpairs : goodIdPairs book.identifier = true) :
    pick_stable_id book rawBytes =
      (match preferredIdValue book.uid book.identifier with
       | some v => v
       | none =>
         match firstIdValue book.identifier with
         | some v => v
         | none => sha1Hex rawBytes) ∧
    (read_epub book stem rawBytes).source_uid = pick_stable_id book rawBytes ∧
    (read_epub book stem rawBytes).book_id =
      (sha1Hex (utf8Encode ((read_epub book stem rawBytes).source_uid))).take 16 := by
  refine ⟨?_, ?_, ?_⟩
  · have h := pickGo_eq book.uid rawBytes huid book.identifier hpairs none
    simpa [pick_stable_id] using h
  · simp only [read_epub]
  · simp only [read_epub]

/-- Witness for C3: a document carrying a preferred marker, a first
identifier and a marker-tagged identifier. -/
theorem pick_stable_id_spec_witness :
    ((⟨some "pref", [(.str "first-id", none), (.str "urn:uuid:abc", some "pref")],
        [], [], [], [], [], [], []⟩ : EpubBook).uid ≠ some "") ∧
    goodIdPairs (⟨some "pref", [(.str "first-id", none), (.str "urn:uuid:abc", some "pref")],
        [], [], [], [], [], [], []⟩ : EpubBook).identifier = true ∧
    (pick_stable_id ⟨some "pref", [(.str "first-id", none), (.str "urn:uuid:abc", some "pref")],
        [], [], [], [], [], [], []⟩ [] =
      (match preferredIdValue (some "pref")
          [(.str "first-id", none), (.str "urn:uuid:abc", some "pref")] with
       | some v => v
       | none =>
         match firstIdValue [(.str "first-id", none), (.str "urn:uuid:abc", some "pref")] with
         | some v => v
         | none => sha1Hex []) ∧
     (read_epub ⟨some "pref", [(.str "first-id", none), (.str "urn:uuid:abc", some "pref")],
        [], [], [], [], [], [], []⟩ "s" []).source_uid =
       pick_stable_id ⟨some "pref", [(.str "first-id", none), (.str "urn:uuid:abc", some "pref")],
        [], [], [], [], [], [], []⟩ [] ∧
     (read_epub ⟨some "pref", [(.str "first-id", none), (.str "urn:uuid:abc", some "pref")],
        [], [], [], [], [], [], []⟩ "s" []).book_id =
       (sha1Hex (utf8Encode ((read_epub ⟨some "pref",
          [(.str "first-id", none), (.str "urn:uuid:abc", some "pref")],
          [], [], [], [], [], [], []⟩ "s" []).source_uid))).take 16) :=
  ⟨by decide, by decide,
   pick_stable_id_spec _ "s" [] (by decide) (by decide)⟩

/-- C2: for a well-formed Document record whose `book_id` is a string, the
Chunk Serializer emits exactly N chunk records — N the sum of the paragraph
counts of all chapters in order — and the emitted `chunk_id` values are
exactly `bid ++ "-" ++ pad6 seq` for `seq = 0, 1, ..., N-1` in that order:
one zero-based gapless global counter across chapters, never reordered,
never deduplicated. -/
theorem chunk_ids_complete (kvs : List (String × JValue)) (ib ic : String)
    (bid : String) (acts : List JValue)
    (hwf : wfBook (.obj kvs) = true)
    (hbid : jlookup kvs "book_id" = some (.str bid))
    (hok : to_bulk_actions (.obj kvs) ib ic = .ok acts) :
    (collectChunkIds acts).length = paraCount (.obj kvs) ∧
    collectChunkIds acts =
      (List.range (paraCount (.obj kvs))).map
        (fun i => JValue.str (bid ++ "-" ++ pad6 i)) := by
  obtain ⟨kvs', chs, rest, hj, hit, hca, hacts⟩ := to_bulk_actions_ok_shape hok
  injection hj with hj
  subst hj
  obtain ⟨hit', hwfch⟩ := wfBook_chapters hwf
  rw [hit'] at hit
  injection hit with hit
  subst hit
  obtain ⟨res, hres, hids⟩ := chaptersActions_wf_ok ((jlookup kvs "book_id").getD .null) ic
    (chaptersOf (.obj kvs)) hwfch 0 0
  rw [hca] at hres
  injection hres with hres
  subst hres
  subst hacts
  have hmain : collectChunkIds (bookMetaOf kvs ib :: bookDocOf kvs :: rest) =
      (List.range (paraCount (.obj kvs))).map (fun i => JValue.str (bid ++ "-" ++ pad6 i)) := by
    rw [collectChunkIds_book_cons, hids, hbid, seqIds_eq_range', List.range_eq_range']
    simp [pyStr, paraCount]
  refine ⟨?_, hmain⟩
  rw [hmain]
  simp

/-- Concrete Document record used by witnesses: two chapters with two and
one paragraphs. -/
def c2Kvs : List (String × JValue) :=
  [("book_id", .str "b"),
   ("chapters", .arr
     [.obj [("chapter", .str "One"), ("paragraphs", .arr [.str "p1", .str "p2"])],
      .obj [("paragraphs", .arr [.str "p3"])]])]

/-- The bulk actions emitted for `c2Kvs`. -/
def c2Acts : List JValue :=
  (to_bulk_actions (.obj c2Kvs) "books" "book_content").toOption.getD []

/-- Witness for C2 at the concrete Document `c2Kvs`. -/
theorem chunk_ids_complete_witness :
    wfBook (.obj c2Kvs) = true ∧
    jlookup c2Kvs "book_id" = some (.str "b") ∧
    to_bulk_actions (.obj c2Kvs) "books" "book_content" = .ok c2Acts ∧
    ((collectChunkIds c2Acts).length = paraCount (.obj c2Kvs) ∧
     collectChunkIds c2Acts =
       (List.range (paraCount (.obj c2Kvs))).map
         (fun i => JValue.str ("b" ++ "-" ++ pad6 i))) :=
  ⟨rfl, rfl, rfl, chunk_ids_complete c2Kvs "books" "book_content" "b" c2Acts rfl rfl rfl⟩

/-- `metaAssignedId` of the book action line is precisely the `book_id`
field of the book source line. -/
theorem metaAssignedId_bookMetaOf (kvs : List (String × JValue)) (ib : String) :
    metaAssignedId (bookMetaOf kvs ib) = jlookup (bookDocKvs kvs) "book_id" := rfl

theorem chunkLines_noId (ic : String) :
    ∀ (l : List JValue), chunkLines ic l →
      ∀ a ∈ l, actionMeta a = true → metaAssignedId a = none
  | [], _, a, ha, _ => by cases ha
  | m :: s :: rest, h, a, ha, hm => by
    rw [show chunkLines ic (m :: s :: rest) =
        (m = chunkMetaOf ic ∧ actionMeta s = false ∧ chunkLines ic rest) from rfl] at h
    simp only [List.mem_cons] at ha
    rcases ha with ha | ha | ha
    · rw [ha, h.1]; exact metaAssignedId_chunkMetaOf ic
    · rw [ha] at hm; rw [h.2.1] at hm; cases hm
    · exact chunkLines_noId ic rest h.2.2 a ha hm
  | [_], h, _, _, _ => h.elim

theorem process_snd_noId (ib ic : String) :
    ∀ (inputs : List JValue), ∀ a ∈ (process_json_objects ib ic inputs).2,
      actionMeta a = true → metaAssignedId a = none := by
  intro inputs
  induction inputs with
  | nil => intro a ha; cases ha
  | cons d rest ih =>
    intro a ha hm
    rcases hd : to_bulk_actions d ib ic with e | acts
    · rw [show (process_json_objects ib ic (d :: rest)).2 =
          (process_json_objects ib ic rest).2 from by
        simp [process_json_objects, hd]] at ha
      exact ih a ha hm
    · obtain ⟨kvs, chs, rest', hj, hit, hca, hacts⟩ := to_bulk_actions_ok_shape hd
      have hcl := chaptersActions_shape _ ic chs 0 0 rest' hca
      have hso : sourcesOk acts := by
        rw [hacts]
        exact ⟨actionMeta_bookDocOf kvs, chunkLines_sourcesOk ic rest' hcl⟩
      rw [show (process_json_objects ib ic (d :: rest)).2 =
          (pairSplit ib ic acts).2 ++ (process_json_objects ib ic rest).2 from by
        simp [process_json_objects, hd]] at ha
      rcases List.mem_append.mp ha with ha | ha
      · exact pairSplit_snd_noId ib ic acts hso a ha hm
      · exact ih a ha hm

/-- C6: every Book summary encoding carries an explicit `_id` equal to the
own `book_id` field of the record — so two encodings of the same record carry the
same `_id` — while every chunk-mode action metadata line, both as emitted by
`to_bulk_actions` and in the final content stream, carries no `_id` key at
all. -/
theorem book_upsert_chunk_auto_id (ib ic : String) :
    (∀ (j : JValue) (acts : List JValue), to_bulk_actions j ib ic = .ok acts →
      ∃ kvs, j = .obj kvs ∧
        metaAssignedId (acts.headD .null) = jlookup (bookDocKvs kvs) "book_id" ∧
        (∀ acts₂, to_bulk_actions j ib ic = .ok acts₂ →
          metaAssignedId (acts₂.headD .null) = metaAssignedId (acts.headD .null)) ∧
        (∀ a ∈ acts.drop 2, actionMeta a = true → metaAssignedId a = none)) ∧
    (∀ (inputs : List JValue), ∀ a ∈ (process_json_objects ib ic inputs).2,
      actionMeta a = true → metaAssignedId a = none) := by
  constructor
  · intro j acts hok
    obtain ⟨kvs, chs, rest, hj, hit, hca, hacts⟩ := to_bulk_actions_ok_shape hok
    have hcl := chaptersActions_shape _ ic chs 0 0 rest hca
    refine ⟨kvs, hj, ?_, ?_, ?_⟩
    · rw [hacts]
      exact metaAssignedId_bookMetaOf kvs ib
    · intro acts₂ hok₂
      rw [hok] at hok₂
      injection hok₂ with h
      rw [h]
    · rw [hacts]
      intro a ha hm
      exact chunkLines_noId ic rest hcl a ha hm
  · exact process_snd_noId ib ic

/-- Witness for C6 at the concrete Document `c2Kvs`. -/
theorem book_upsert_chunk_auto_id_witness :
    to_bulk_actions (.obj c2Kvs) "books" "book_content" = .ok c2Acts ∧
    (∃ kvs, JValue.obj c2Kvs = .obj kvs ∧
      metaAssignedId (c2Acts.headD .null) = jlookup (bookDocKvs kvs) "book_id" ∧
      (∀ acts₂, to_bulk_actions (.obj c2Kvs) "books" "book_content" = .ok acts₂ →
        metaAssignedId (acts₂.headD .null) = metaAssignedId (c2Acts.headD .null)) ∧
      (∀ a ∈ c2Acts.drop 2, actionMeta a = true → metaAssignedId a = none)) :=
  ⟨rfl, (book_upsert_chunk_auto_id "books" "book_content").1 (.obj c2Kvs) c2Acts rfl⟩

/-- The stream split computed by `process_json_objects`, documentwise. -/
theorem process_structure (ib ic : String) (hne : ib ≠ ic) :
    ∀ (inputs : List JValue),
      (process_json_objects ib ic inputs).1 =
        inputs.flatMap (fun d =>
          match to_bulk_actions d ib ic with
          | .ok acts => acts.take 2
          | .error _ => []) ∧
      (process_json_objects ib ic inputs).2 =
        inputs.flatMap (fun d =>
          match to_bulk_actions d ib ic with
          | .ok acts => acts.drop 2
          | .error _ => []) ∧
      altPairs (process_json_objects ib ic inputs).1 = true ∧
      altPairs (process_json_objects ib ic inputs).2 = true := by
  intro inputs
  induction inputs with
  | nil => exact ⟨rfl, rfl, rfl, rfl⟩
  | cons d rest ih =>
    obtain ⟨ih1, ih2, ih3, ih4⟩ := ih
    rcases hd : to_bulk_actions d ib ic with e | acts
    · refine ⟨?_, ?_, ?_, ?_⟩
      · simp [process_json_objects, hd, ih1]
      · simp [process_json_objects, hd, ih2]
      · rw [show (process_json_objects ib ic (d :: rest)).1 =
            (process_json_objects ib ic rest).1 from by simp [process_json_objects, hd]]
        exact ih3
      · rw [show (process_json_objects ib ic (d :: rest)).2 =
            (process_json_objects ib ic rest).2 from by simp [process_json_objects, hd]]
        exact ih4
    · obtain ⟨kvs, chs, rest', hj, hit, hca, hacts⟩ := to_bulk_actions_ok_shape hd
      have hcl := chaptersActions_shape _ ic chs 0 0 rest' hca
      have hsplit : pairSplit ib ic acts = ([bookMetaOf kvs ib, bookDocOf kvs], rest') := by
        rw [hacts]
        have hps := pairSplit_chunkLines hne rest' hcl
        simp [pairSplit, hps, metaIndexName_bookMetaOf]
      have htake : acts.take 2 = [bookMetaOf kvs ib, bookDocOf kvs] := by rw [hacts]; rfl
      have hdrop : acts.drop 2 = rest' := by rw [hacts]; rfl
      have hb2 : altPairs [bookMetaOf kvs ib, bookDocOf kvs] = true := by
        simp [altPairs, actionMeta_bookMetaOf, actionMeta_bookDocOf]
      refine ⟨?_, ?_, ?_, ?_⟩
      · simp [process_json_objects, hd, hsplit, ih1, htake]
      · simp [process_json_objects, hd, hsplit, ih2, hdrop]
      · rw [show (process_json_objects ib ic (d :: rest)).1 =
            [bookMetaOf kvs ib, bookDocOf kvs] ++ (process_json_objects ib ic rest).1 from by
          simp [process_json_objects, hd, hsplit]]
        exact altPairs_append _ hb2 _ ih3
      · rw [show (process_json_objects ib ic (d :: rest)).2 =
            rest' ++ (process_json_objects ib ic rest).2 from by
          simp [process_json_objects, hd, hsplit]]
        exact altPairs_append _ (chunkLines_altPairs ic rest' hcl) _ ih4

/-- C9: both emitted streams strictly alternate action metadata line and
source line, have an even number of lines, and consist of the per-document
pairs in insertion order: for each document the book pair goes first (to the
books stream), followed by its chunk pairs in (chapter, paragraph) order (to
the content stream). -/
theorem bulk_stream_alternation (ib ic : String) (inputs : List JValue) (hne : ib ≠ ic) :
    altPairs (process_json_objects ib ic inputs).1 = true ∧
    altPairs (process_json_objects ib ic inputs).2 = true ∧
    (process_json_objects ib ic inputs).1.length % 2 = 0 ∧
    (process_json_objects ib ic inputs).2.length % 2 = 0 ∧
    (process_json_objects ib ic inputs).1 =
      inputs.flatMap (fun d =>
        match to_bulk_actions d ib ic with
        | .ok acts => acts.take 2
        | .error _ => []) ∧
    (process_json_objects ib ic inputs).2 =
      inputs.flatMap (fun d =>
        match to_bulk_actions d ib ic with
        | .ok acts => acts.drop 2
        | .error _ => []) := by
  obtain ⟨h1, h2, h3, h4⟩ := process_structure ib ic hne inputs
  exact ⟨h3, h4, altPairs_even _ h3, altPairs_even _ h4, h1, h2⟩

/-- Witness for C9 on a two-document input (one well-formed document, one
malformed document that the converter skips). -/
theorem bulk_stream_alternation_witness :
    (("books" : String) ≠ "book_content") ∧
    (altPairs (process_json_objects "books" "book_content"
        [.obj c2Kvs, .obj [("chapters", .num 5)]]).1 = true ∧
     altPairs (process_json_objects "books" "book_content"
        [.obj c2Kvs, .obj [("chapters", .num 5)]]).2 = true ∧
     (process_json_objects "books" "book_content"
        [.obj c2Kvs, .obj [("chapters", .num 5)]]).1.length % 2 = 0 ∧
     (process_json_objects "books" "book_content"
        [.obj c2Kvs, .obj [("chapters", .num 5)]]).2.length % 2 = 0 ∧
     (process_json_objects "books" "book_content"
        [.obj c2Kvs, .obj [("chapters", .num 5)]]).1 =
       ([.obj c2Kvs, .obj [("chapters", .num 5)]].flatMap (fun d =>
         match to_bulk_actions d "books" "book_content" with
         | .ok acts => acts.take 2
         | .error _ => [])) ∧
     (process_json_objects "books" "book_content"
        [.obj c2Kvs, .obj [("chapters", .num 5)]]).2 =
       ([.obj c2Kvs, .obj [("chapters", .num 5)]].flatMap (fun d =>
         match to_bulk_actions d "books" "book_content" with
         | .ok acts => acts.drop 2
         | .error _ => []))) :=
  ⟨by decide,
   bulk_stream_alternation "books" "book_content"
     [.obj c2Kvs, .obj [("chapters", .num 5)]] (by decide)⟩

/-- Counterexample for C10: `to_bulk_actions` raises (a `TypeError`) on a
JSON object whose `chapters` value is not iterable, so it does not return
for every input JSON object. -/
theorem to_bulk_actions_raises_on_bad_chapters :
    to_bulk_actions (.obj [("chapters", .num 5)]) "books" "book_content" =
      .error "TypeError: object is not iterable" := rfl

/-- C10 (amended): for every input JSON object whose `chapters` entry, when
present, is a list of objects each of whose `paragraphs` entry, when
present, is a list, `to_bulk_actions` returns without raising, emits the two
book lines first, and fills absent scalar metadata with empty-string
defaults except `book_id`, `title` and `language`, which are serialized as
JSON null when absent. -/
theorem to_bulk_actions_total (ib ic : String) (kvs : List (String × JValue))
    (hwf : wfBook (.obj kvs) = true) :
    ∃ acts, to_bulk_actions (.obj kvs) ib ic = .ok acts ∧
      acts.take 2 = [bookMetaOf kvs ib, bookDocOf kvs] ∧
      (jlookup kvs "book_id" = none → jlookup (bookDocKvs kvs) "book_id" = some .null) ∧
      (jlookup kvs "title" = none → jlookup (bookDocKvs kvs) "title" = some .null) ∧
      (jlookup kvs "language" = none → jlookup (bookDocKvs kvs) "language" = some .null) ∧
      (jlookup kvs "source_uid" = none →
        jlookup (bookDocKvs kvs) "source_uid" = some (.str "")) ∧
      (jlookup kvs "author" = none → jlookup (bookDocKvs kvs) "author" = some (.str "")) ∧
      (jlookup kvs "publisher" = none →
        jlookup (bookDocKvs kvs) "publisher" = some (.str "")) ∧
      (jlookup kvs "description" = none →
        jlookup (bookDocKvs kvs) "description" = some (.str "")) ∧
      (jlookup kvs "genres" = none → jlookup (bookDocKvs kvs) "genres" = some (.str "")) ∧
      (jlookup kvs "linkToBook" = none →
        jlookup (bookDocKvs kvs) "linkToBook" = some (.str "")) := by
  obtain ⟨hit, hwfch⟩ := wfBook_chapters hwf
  obtain ⟨res, hres, _⟩ := chaptersActions_wf_ok ((jlookup kvs "book_id").getD .null) ic
    (chaptersOf (.obj kvs)) hwfch 0 0
  refine ⟨bookMetaOf kvs ib :: bookDocOf kvs :: res, ?_, rfl, ?_, ?_, ?_, ?_, ?_, ?_, ?_, ?_, ?_⟩
  · simp [to_bulk_actions, hit, hres]
  all_goals intro h
  all_goals simp [bookDocKvs, jlookup, h]

/-- Witness for C10 (amended) at the empty JSON object. -/
theorem to_bulk_actions_total_witness :
    wfBook (.obj []) = true ∧
    (∃ acts, to_bulk_actions (.obj []) "books" "book_content" = .ok acts ∧
      acts.take 2 = [bookMetaOf [] "books", bookDocOf []] ∧
      (jlookup [] "book_id" = none → jlookup (bookDocKvs []) "book_id" = some .null) ∧
      (jlookup [] "title" = none → jlookup (bookDocKvs []) "title" = some .null) ∧
      (jlookup [] "language" = none → jlookup (bookDocKvs []) "language" = some .null) ∧
      (jlookup [] "source_uid" = none →
        jlookup (bookDocKvs []) "source_uid" = some (.str "")) ∧
      (jlookup [] "author" = none → jlookup (bookDocKvs []) "author" = some (.str "")) ∧
      (jlookup [] "publisher" = none →
        jlookup (bookDocKvs []) "publisher" = some (.str "")) ∧
      (jlookup [] "description" = none →
        jlookup (bookDocKvs []) "description" = some (.str "")) ∧
      (jlookup [] "genres" = none → jlookup (bookDocKvs []) "genres" = some (.str "")) ∧
      (jlookup [] "linkToBook" = none →
        jlookup (bookDocKvs []) "linkToBook" = some (.str ""))) :=
  ⟨rfl, to_bulk_actions_total "books" "book_content" [] rfl⟩

/-- Counterexample for C4: on a document with zero structured metadata (and
no content), the resolved record leaves `language` and `description` absent
(serialized as JSON null downstream), not as empty strings — so not every
field of the canonical record is non-null. -/
theorem metadata_language_absent :
    (read_epub ⟨none, [], [], [], [], [], [], [], []⟩ "x" []).language = none ∧
    (read_epub ⟨none, [], [], [], [], [], [], [], []⟩ "x" []).description = none :=
  ⟨rfl, rfl⟩

/-- C4 (amended): resolution never fails, and on a document with zero
structured metadata fields and no content subunits the resolver yields
`title` equal to the source base name, empty strings for `publisher`,
`genres` and `linkToBook`, the file-name fallback value for `author`, and
leaves `language` and `description` absent (null) rather than defaulting
them to empty strings. -/
theorem metadata_defaults (book : EpubBook) (stem : String) (rawBytes : List Nat)
    (ht : book.title = []) (hc : book.creator = []) (hp : book.publisher = [])
    (hl : book.language = []) (hd : book.description = []) (hs : book.subject = [])
    (hi : book.items = []) :
    (read_epub book stem rawBytes).title = stem ∧
    (read_epub book stem rawBytes).author = stemAuthorFallback stem ∧
    (read_epub book stem rawBytes).publisher = "" ∧
    (read_epub book stem rawBytes).genres = "" ∧
    (read_epub book stem rawBytes).linkToBook = "" ∧
    (read_epub book stem rawBytes).language = none ∧
    (read_epub book stem rawBytes).description = none := by
  obtain ⟨uid, idf, bt, bc, bp, bl, bd, bs, bi⟩ := book
  dsimp only at ht hc hp hl hd hs hi
  subst ht; subst hc; subst hp; subst hl; subst hd; subst hs; subst hi
  refine ⟨?_, ?_, ?_, ?_, ?_, ?_, ?_⟩ <;>
    simp [read_epub, meta_values, stemAuthorFallback, intercalate_nil, pyStrip_empty]

/-- Witness for C4 (amended) at a concrete metadata-free document. -/
theorem metadata_defaults_witness :
    ((⟨some "u", [(.str "id1", none)], [], [], [], [], [], [], []⟩ : EpubBook).title = [] ∧
     (⟨some "u", [(.str "id1", none)], [], [], [], [], [], [], []⟩ : EpubBook).creator = []) ∧
    ((read_epub ⟨some "u", [(.str "id1", none)], [], [], [], [], [], [], []⟩
        "jane-doe_tales" []).title = "jane-doe_tales" ∧
     (read_epub ⟨some "u", [(.str "id1", none)], [], [], [], [], [], [], []⟩
        "jane-doe_tales" []).author = stemAuthorFallback "jane-doe_tales" ∧
     (read_epub ⟨some "u", [(.str "id1", none)], [], [], [], [], [], [], []⟩
        "jane-doe_tales" []).publisher = "" ∧
     (read_epub ⟨some "u", [(.str "id1", none)], [], [], [], [], [], [], []⟩
        "jane-doe_tales" []).genres = "" ∧
     (read_epub ⟨some "u", [(.str "id1", none)], [], [], [], [], [], [], []⟩
        "jane-doe_tales" []).linkToBook = "" ∧
     (read_epub ⟨some "u", [(.str "id1", none)], [], [], [], [], [], [], []⟩
        "jane-doe_tales" []).language = none ∧
     (read_epub ⟨some "u", [(.str "id1", none)], [], [], [], [], [], [], []⟩
        "jane-doe_tales" []).description = none) :=
  ⟨⟨rfl, rfl⟩,
   metadata_defaults _ "jane-doe_tales" [] rfl rfl rfl rfl rfl rfl rfl⟩

/-- Counterexample for C5: the by-line scan is not case-insensitive.  With
empty creator metadata and a first paragraph reading `"BY JANE, a novel"`
(an uppercase by-line the claim says must match, giving author `"JANE"`),
the regex `\b[Bb]y\s+...` does not match, the file-stem fallback fires, and
the resolved author is `"X"`, not `"JANE"`. -/
theorem author_by_line_not_case_insensitive :
    (read_epub ⟨none, [], [], [], [], [], [], [],
        [⟨"it", true, [.elem "p" [.txt "BY JANE, a novel"]]⟩]⟩ "x" []).author = "X" ∧
    ("X" : String) ≠ "JANE" :=
  ⟨by decide, by decide⟩

/-- The author-resolution chain, factored over an arbitrary chapter list
(the code expression of `read_epub` on empty creator metadata, compared to
the claim-side chain). -/
theorem author_chain_core (stem : String) (C : List ChapterRec) :
    (let author1 :=
       match C with
       | [] => ("" : String)
       | ch0 :: _ =>
         if ("" : String) = "" then
           match searchBy (String.intercalate "\n" (ch0.paragraphs.take 10)) with
           | some g => pyStrip g
           | none => ""
         else ""
     let author2 :=
       if author1 = "" then
         let slug := pyStrip (pyReplaceChar ((pySplitChar stem '_').headD "") '-' ' ')
         if slug ≠ "" ∧ (pySplitWs slug).length ≤ 4 then pyTitle slug else author1
       else author1
     author2) =
    (match byLineAuthor C with
     | some g => if g = "" then stemAuthorFallback stem else g
     | none => stemAuthorFallback stem) := by
  cases C with
  | nil => simp [byLineAuthor, stemAuthorFallback]
  | cons ch0 cs =>
    cases hsb : searchBy (String.intercalate "\n" (ch0.paragraphs.take 10)) with
    | none => simp [byLineAuthor, hsb, stemAuthorFallback]
    | some g =>
      by_cases hg : pyStrip g = "" <;>
        simp [byLineAuthor, hsb, hg, stemAuthorFallback]

/-- C5 (amended): with empty structured creator metadata, the resolved
author follows the chain: the by-line match (`"By"` or `"by"` only — the
initial letter is the sole case-insensitive position) over the first ten
paragraphs of the first section, stripped; then, when that is empty or
absent, the file-stem fallback (segment before the first underscore, hyphens
to spaces, title-cased, accepted only with at most four words); otherwise
the empty string. -/
theorem author_fallback_chain (book : EpubBook) (stem : String) (rawBytes : List Nat)
    (hc : book.creator = []) :
    (read_epub book stem rawBytes).author =
      (match byLineAuthor ((read_epub book stem rawBytes).chapters) with
       | some g => if g = "" then stemAuthorFallback stem else g
       | none => stemAuthorFallback stem) := by
  obtain ⟨uid, idf, bt, bc, bp, bl, bd, bs, bi⟩ := book
  dsimp only at hc
  subst hc
  simp only [read_epub, meta_values, List.filterMap_nil, List.filter_nil]
  exact author_chain_core stem _

/-- Witness for C5 (amended): the specification example — empty creator
metadata and a first paragraph `"By Jane Q. Author, a novel"` resolves
author `"Jane Q. Author"`. -/
theorem author_fallback_chain_witness :
    ((⟨none, [], [], [], [], [], [], [],
        [⟨"it", true, [.elem "p" [.txt "By Jane Q. Author, a novel"]]⟩]⟩ : EpubBook).creator
      = []) ∧
    (read_epub ⟨none, [], [], [], [], [], [], [],
        [⟨"it", true, [.elem "p" [.txt "By Jane Q. Author, a novel"]]⟩]⟩ "x" []).author =
      "Jane Q. Author" :=
  ⟨rfl,
   (author_fallback_chain ⟨none, [], [], [], [], [], [], [],
      [⟨"it", true, [.elem "p" [.txt "By Jane Q. Author, a novel"]]⟩]⟩ "x" [] rfl).trans
     (by decide)⟩

/-- C7: per-pair behavior of embedding-merge mode: an empty or absent source
text field contributes zero output actions; with no assigned `_id` the
computed vector is injected into the source document under the target field
and a full index action plus the enriched source are emitted; with an
assigned `_id` a partial-update action and a `doc` line carrying only the
vector are emitted. -/
theorem embed_merge_cases (encode : JValue → JValue) (override : Option String)
    (srcField tgtField : String) (mkvs ikvs skvs : List (String × JValue)) (idxv : JValue)
    (hidx : jlookup mkvs "index" = some (.obj ikvs))
    (hres : resolveIdx override (.obj ikvs) = .ok idxv) :
    ((jlookup skvs srcField = none ∨ jlookup skvs srcField = some (.str "")) →
      embedStep encode override srcField tgtField (.obj mkvs) (.obj skvs) = .ok []) ∧
    (∀ tv, jlookup ikvs "_id" = none → jlookup skvs srcField = some tv →
      pyTruthy tv = true →
      embedStep encode override srcField tgtField (.obj mkvs) (.obj skvs) =
        .ok [.obj [("index", .obj [("_index", idxv)])],
             objSet (.obj skvs) tgtField (encode tv)]) ∧
    (∀ idv tv, jlookup ikvs "_id" = some idv → jlookup skvs srcField = some tv →
      pyTruthy tv = true →
      embedStep encode override srcField tgtField (.obj mkvs) (.obj skvs) =
        .ok [.obj [("update", .obj [("_index", idxv), ("_id", idv)])],
             .obj [("doc", .obj [(tgtField, encode tv)])]]) := by
  refine ⟨?_, ?_, ?_⟩
  · intro hsrc
    rcases hid : jlookup ikvs "_id" with _ | idv
    · rcases hsrc with hsrc | hsrc <;>
        simp [embedStep, hidx, hres, pyContainsKey, hid, hsrc, pyTruthy]
    · rcases hsrc with hsrc | hsrc <;>
        simp [embedStep, hidx, hres, pyContainsKey, pyIndexGet, hid, hsrc, pyTruthy]
  · intro tv hid hsrc htv
    simp [embedStep, hidx, hres, pyContainsKey, hid, hsrc, htv]
  · intro idv tv hid hsrc htv
    simp [embedStep, hidx, hres, pyContainsKey, pyIndexGet, hid, hsrc, htv]

/-- Witness for C7: the three cases at concrete pairs. -/
theorem embed_merge_cases_witness :
    (jlookup [("index", JValue.obj [("_index", .str "bc")])] "index" =
      some (.obj [("_index", .str "bc")])) ∧
    embedStep (fun _ => .arr [.num 7]) none "text" "vec"
      (.obj [("index", .obj [("_index", .str "bc")])]) (.obj [("text", .str "")]) = .ok [] ∧
    embedStep (fun _ => .arr [.num 7]) none "text" "vec"
      (.obj [("index", .obj [("_index", .str "bc")])]) (.obj [("text", .str "hi")]) =
      .ok [.obj [("index", .obj [("_index", .str "bc")])],
           objSet (.obj [("text", .str "hi")]) "vec" ((fun _ => JValue.arr [.num 7])
             (JValue.str "hi"))] ∧
    embedStep (fun _ => .arr [.num 7]) none "text" "vec"
      (.obj [("index", .obj [("_index", .str "bc"), ("_id", .str "ID")])])
      (.obj [("text", .str "hi")]) =
      .ok [.obj [("update", .obj [("_index", .str "bc"), ("_id", .str "ID")])],
           .obj [("doc", .obj [("vec", (fun _ => JValue.arr [.num 7]) (JValue.str "hi"))])]] :=
  ⟨rfl,
   (embed_merge_cases (fun _ => .arr [.num 7]) none "text" "vec"
      [("index", .obj [("_index", .str "bc")])] [("_index", .str "bc")]
      [("text", .str "")] (.str "bc") rfl rfl).1 (Or.inr rfl),
   (embed_merge_cases (fun _ => .arr [.num 7]) none "text" "vec"
      [("index", .obj [("_index", .str "bc")])] [("_index", .str "bc")]
      [("text", .str "hi")] (.str "bc") rfl rfl).2.1 (.str "hi") rfl rfl rfl,
   (embed_merge_cases (fun _ => .arr [.num 7]) none "text" "vec"
      [("index", .obj [("_index", .str "bc"), ("_id", .str "ID")])]
      [("_index", .str "bc"), ("_id", .str "ID")]
      [("text", .str "hi")] (.str "bc") rfl rfl).2.2 (.str "ID") (.str "hi") rfl rfl rfl⟩

/-- Counterexample for C8: label selection is not by heading priority order.
On markup whose second-level heading precedes its top-level heading in
document order, the extractor labels the section with the second-level
heading text `"A"`, while priority order (top-level first) demands `"B"`. -/
theorem extract_label_not_priority_order :
    (extract_texts_from_item
      ⟨"it", true, [.elem "h2" [.txt "A"], .elem "h1" [.txt "B"]]⟩).1 = "A" ∧
    ("A" : String) ≠ "B" :=
  ⟨rfl, by decide⟩

/-- C8 (amended): the Content Extractor never raises, and its label is the
text of the first element in document (pre-order) order among the three
heading levels and the title element; when no such element exists or its
text is empty, the label is the subunit name — hence the label is non-empty
whenever the subunit name is non-empty. -/
theorem extract_label_spec (item : EpubItem) :
    (extract_texts_from_item item).1 = labelDocOrder item ∧
    (item.name ≠ "" → (extract_texts_from_item item).1 ≠ "") := by
  obtain ⟨name, isDoc, content⟩ := item
  simp only [extract_texts_from_item, labelDocOrder]
  cases hf : findFirstList ["h1", "h2", "h3", "title"] content with
  | none => simp [hf]
  | some h =>
    by_cases ht : getText1 " " h = ""
    · simp [hf, ht]
    · simp [hf, ht]

/-- Witness for C8 (amended) at a concrete subunit whose title element
precedes its top-level heading. -/
theorem extract_label_spec_witness :
    ((⟨"it", true, [.elem "title" [.txt "T"], .elem "h1" [.txt "H"]]⟩ : EpubItem).name ≠ "") ∧
    (extract_texts_from_item
       (⟨"it", true, [.elem "title" [.txt "T"], .elem "h1" [.txt "H"]]⟩ : EpubItem)).1 =
      labelDocOrder ⟨"it", true, [.elem "title" [.txt "T"], .elem "h1" [.txt "H"]]⟩ ∧
    (extract_texts_from_item
       (⟨"it", true, [.elem "title" [.txt "T"], .elem "h1" [.txt "H"]]⟩ : EpubItem)).1 ≠ "" :=
  ⟨by decide,
   (extract_label_spec ⟨"it", true, [.elem "title" [.txt "T"], .elem "h1" [.txt "H"]]⟩).1,
   (extract_label_spec ⟨"it", true, [.elem "title" [.txt "T"], .elem "h1" [.txt "H"]]⟩).2
     (by decide)⟩

end LibrarySearch
